import Mathlib

/-!
# Verification of the aicss HTML/CSS processing pipeline

Shallow embedding of the directive parser, tag expander, style extractor,
stylesheet assembler and sanitization pass of `src/aicss/ml/html_processor.py`
and `src/aicss/ml/engine.py`, together with proofs and refutations of the
specification's claims.

Documents are modelled as ordered trees of elements and text nodes (the data
model of the source's BeautifulSoup usage); the natural-language → CSS
resolver (`process_description` in `engine.py`, an external ML service) is
abstracted as a function parameter, exactly as the specification treats it.
The source's regular expressions are embedded as deterministic scanners over
`List Char` implementing Python `re` leftmost-match semantics for the exact
patterns appearing in the source.  All definitions are structurally recursive
so that concrete counterexamples evaluate inside the kernel.
-/

namespace AICSS

/-! ## Character and string primitives (ASCII fragment of Python semantics) -/

/-- ASCII whitespace, as matched by Python's `\s` and by `str.strip` and
`str.isspace` on ASCII input. -/
def isSpaceChar (c : Char) : Bool :=
  c = ' ' || c = '\t' || c = '\n' || c = '\r' || c = '\x0b' || c = '\x0c'

/-- Python `str.strip()` (ASCII whitespace). -/
def stripChars (cs : List Char) : List Char :=
  ((cs.dropWhile isSpaceChar).reverse.dropWhile isSpaceChar).reverse

def pyStrip (s : String) : String := ⟨stripChars s.data⟩

/-- Python `not s or s.isspace()`: every character is whitespace (true for
the empty string). -/
def isBlank (s : String) : Bool := s.data.all isSpaceChar

/-- Python `sub in s` (substring containment). -/
def containsSubList (pat : List Char) : List Char → Bool
  | [] => pat.isEmpty
  | c :: cs => pat.isPrefixOf (c :: cs) || containsSubList pat cs

def containsSub (pat s : String) : Bool := containsSubList pat.data s.data

/-- Python `str.lower()` (ASCII). -/
def pyLower (s : String) : String := ⟨s.data.map Char.toLower⟩

/-- Python `str.upper()` (ASCII). -/
def pyUpper (s : String) : String := ⟨s.data.map Char.toUpper⟩

def strStartsWith (s pat : String) : Bool := pat.data.isPrefixOf s.data

def strEndsWith (s pat : String) : Bool := pat.data.isSuffixOf s.data

/-- Python `s[:-n]` for `n ≤ len s`. -/
def strDropRight (s : String) (n : Nat) : String :=
  ⟨s.data.take (s.data.length - n)⟩

/-- Characters of the regex class `[a-zA-Z0-9_-]`. -/
def isIdentChar (c : Char) : Bool :=
  c.isAlpha || c.isDigit || c = '_' || c = '-'

/-- Lowercase hexadecimal digit, the regex class `[0-9a-f]`. -/
def isHexLower (c : Char) : Bool :=
  c.isDigit || (c = 'a' || c = 'b' || c = 'c' || c = 'd' || c = 'e' || c = 'f')

/-! ## Regex scanners

Each regular expression used by `extract_directives`, `get_remaining_text`
and the cleanup passes of `html_processor.py` is embedded as a deterministic
matcher `List Char → Option (List Char × List Char)` returning the captured
group and the input remaining after the match.  `searchM` then implements
`re.search`'s leftmost-match rule, and `subAllF` implements `re.sub`
(all non-overlapping matches, scanning left to right). -/

/-- Match a literal character sequence and return the rest. -/
def matchLit : List Char → List Char → Option (List Char)
  | [], cs => some cs
  | _ :: _, [] => none
  | p :: ps, c :: cs => if c = p then matchLit ps cs else none

/-- Match `\s+`: one or more whitespace characters, greedily.  (In every
pattern of the source, `\s+` is followed by a non-whitespace token, so the
greedy maximal run is the unique parse.) -/
def matchWs1 : List Char → Option (List Char)
  | c :: cs => if isSpaceChar c then some (cs.dropWhile isSpaceChar) else none
  | [] => none

/-- Consume characters up to the first occurrence of `q`; return the consumed
prefix and the rest after `q`.  This is the unique parse of the greedy
`([^q]*)q` regex fragment. -/
def takeUntilChar (q : Char) : List Char → Option (List Char × List Char)
  | [] => none
  | c :: cs =>
    if c = q then some ([], cs)
    else
      match takeUntilChar q cs with
      | some (v, rest) => some (c :: v, rest)
      | none => none

/-- Match `q([^q]+)q`: opening quote, a non-empty run of non-quote
characters, closing quote. -/
def matchQuotedPlus (q : Char) : List Char → Option (List Char × List Char)
  | c :: cs =>
    if c = q then
      match takeUntilChar q cs with
      | some (v, rest) => if v.isEmpty then none else some (v, rest)
      | none => none
    else none
  | [] => none

/-- Match the escape-aware star value `((?:[^q\\]|\\.)*)q` of the `content`
patterns: characters other than `q`, with backslash-escaped pairs consumed
as units, up to an unescaped closing `q`. -/
def scanEscValue (q : Char) : List Char → Option (List Char × List Char)
  | [] => none
  | [c] => if c = q then some ([], []) else none
  | c :: d :: cs =>
    if c = q then some ([], d :: cs)
    else if c = '\\' then
      match scanEscValue q cs with
      | some (v, rest) => some (c :: d :: v, rest)
      | none => none
    else
      match scanEscValue q (d :: cs) with
      | some (v, rest) => some (c :: v, rest)
      | none => none

/-- `re.search`: try the matcher at every position, leftmost first. -/
def searchM (m : List Char → Option (List Char × List Char)) :
    List Char → Option (List Char × List Char)
  | [] => m []
  | c :: cs =>
    match m (c :: cs) with
    | some r => some r
    | none => searchM m cs

/-- `re.sub`: replace every non-overlapping match (scanning left to right)
by `rep` applied to the captured group.  `fuel` bounds the recursion; all
matchers used consume at least one character, so `cs.length` fuel is enough. -/
def subAllGo (m : List Char → Option (List Char × List Char))
    (rep : List Char → List Char) : Nat → List Char → List Char
  | _, [] => []
  | 0, cs => cs
  | fuel + 1, c :: cs =>
    match m (c :: cs) with
    | some (v, rest) => rep v ++ subAllGo m rep fuel rest
    | none => c :: subAllGo m rep fuel cs

def subAllF (m : List Char → Option (List Char × List Char))
    (rep : List Char → List Char) (cs : List Char) : List Char :=
  subAllGo m rep cs.length cs

/-- Python `str.replace(pat, rep)` for non-empty `pat`. -/
def strReplaceAll (pat rep s : String) : String :=
  ⟨subAllF (fun cs => (matchLit pat.data cs).map (fun r => ([], r)))
    (fun _ => rep.data) s.data⟩

end AICSS

namespace AICSS

/-! ## Directive parser (`extract_directives`, html_processor.py 664-768)

The nine directive keys and their patterns, embedded matcher by matcher.
Alternatives are tried in the order the regex alternation lists them. -/

/-- `key\s+"([^"]+)"|key\s+'([^']+)'` at the current position. -/
def matchKeyValHere (key : String) (cs : List Char) :
    Option (List Char × List Char) :=
  match matchLit key.data cs with
  | none => none
  | some r1 =>
    match matchWs1 r1 with
    | none => none
    | some r2 =>
      match matchQuotedPlus '"' r2 with
      | some x => some x
      | none => matchQuotedPlus '\'' r2

/-- `style\s+"([^"]+)"` (resp. single-quoted) at the current position. -/
def matchStyleCore (q : Char) (cs : List Char) :
    Option (List Char × List Char) :=
  match matchLit ("style".data) cs with
  | none => none
  | some r1 =>
    match matchWs1 r1 with
    | none => none
    | some r2 => matchQuotedPlus q r2

/-- `with\s+style\s+"([^"]+)"` (resp. single-quoted). -/
def matchWithStyle (q : Char) (cs : List Char) :
    Option (List Char × List Char) :=
  match matchLit ("with".data) cs with
  | none => none
  | some r1 =>
    match matchWs1 r1 with
    | none => none
    | some r2 => matchStyleCore q r2

/-- `(?:with\s+)?style\s+"([^"]+)"|(?:with\s+)?style\s+'([^']+)'`: the
backtracking order of the optional `with` group and the alternation. -/
def matchStyleHere (cs : List Char) : Option (List Char × List Char) :=
  match matchWithStyle '"' cs with
  | some x => some x
  | none =>
    match matchStyleCore '"' cs with
    | some x => some x
    | none =>
      match matchWithStyle '\'' cs with
      | some x => some x
      | none => matchStyleCore '\'' cs

/-- `([a-zA-Z0-9_-]+)`: greedy non-empty identifier run. -/
def matchIdentPlus (cs : List Char) : Option (List Char × List Char) :=
  let v := cs.takeWhile isIdentChar
  if v.isEmpty then none else some (v, cs.drop v.length)

/-- `class\s+([a-zA-Z0-9_-]+)|class\s+"([^"]+)"|class\s+'([^']+)'`. -/
def matchClassHere (cs : List Char) : Option (List Char × List Char) :=
  match matchLit ("class".data) cs with
  | none => none
  | some r1 =>
    match matchWs1 r1 with
    | none => none
    | some r2 =>
      match matchIdentPlus r2 with
      | some x => some x
      | none =>
        match matchQuotedPlus '"' r2 with
        | some x => some x
        | none => matchQuotedPlus '\'' r2

/-- `content\s+"((?:[^"\\]|\\.)*)"|content\s+'((?:[^'\\]|\\.)*)'`. -/
def matchContentHere (cs : List Char) : Option (List Char × List Char) :=
  match matchLit ("content".data) cs with
  | none => none
  | some r1 =>
    match matchWs1 r1 with
    | none => none
    | some r2 =>
      let dq := match r2 with
        | '"' :: r3 => scanEscValue '"' r3
        | _ => none
      match dq with
      | some x => some x
      | none =>
        match r2 with
        | '\'' :: r3 => scanEscValue '\'' r3
        | _ => none

/-- The fixed directive vocabulary, in the iteration order of the source's
`patterns` dict. -/
def directiveKeys : List String :=
  ["content", "style", "text", "class", "href", "src", "alt", "type",
   "placeholder"]

/-- `re.search` of the fast pattern for one directive key. -/
def searchKey (key : String) (cs : List Char) :
    Option (List Char × List Char) :=
  if key = "content" then searchM matchContentHere cs
  else if key = "style" then searchM matchStyleHere cs
  else if key = "class" then searchM matchClassHere cs
  else searchM (matchKeyValHere key) cs

/-- The dict entry contributed by one key's search result. -/
def optEntry (k : String) : Option (List Char × List Char) →
    List (String × String)
  | some (v, _) => [(k, (⟨v⟩ : String))]
  | none => []

/-- Assoc-list lookup (Python dict read; keys are unique by construction). -/
def lookupA (k : String) : List (String × String) → Option String
  | [] => none
  | (k', v) :: rest => if k' = k then some v else lookupA k rest

/-- Terminator lookahead of the manual `content` fallback scan
(html_processor.py 749-753): the rest of the text, left-stripped, must be
empty, start with `with style` or `style`, or start with a
non-alphanumeric character. -/
def fbRestOkay (rest : List Char) : Bool :=
  let r := rest.dropWhile isSpaceChar
  match r with
  | [] => true
  | c :: _ =>
    ("with style".data).isPrefixOf r || ("style".data).isPrefixOf r ||
      !c.isAlphanum

/-- The manual fallback scan over the text after the opening quote
(html_processor.py 736-760), with its escape-flag toggling. -/
def fbScan (q : Char) : List Char → Bool → List Char → Option (List Char)
  | [], _, _ => none
  | c :: cs, esc, acc =>
    if c = '\\' then fbScan q cs (!esc) (c :: acc)
    else if !esc && c = q then
      if fbRestOkay cs then some acc.reverse else fbScan q cs false (c :: acc)
    else fbScan q cs false (c :: acc)

/-- `re.search(r'content\s+q')` for quote `q`, returning the text after the
opening quote. -/
def fbFindStart (q : Char) : List Char → Option (List Char) :=
  fun cs =>
    ((searchM (fun cs' =>
      match matchLit ("content".data) cs' with
      | none => none
      | some r1 =>
        match matchWs1 r1 with
        | none => none
        | some r2 =>
          match r2 with
          | c :: r3 => if c = q then some ([], r3) else none
          | [] => none) cs).map Prod.snd)

/-- The advanced nested-quote content fallback (html_processor.py 717-766):
double-quote attempt first, then single-quote. -/
def contentFallback (cs : List Char) : Option (List Char) :=
  match fbFindStart '"' cs with
  | some rest =>
    match fbScan '"' rest false [] with
    | some v => some v
    | none =>
      match fbFindStart '\'' cs with
      | some rest' => fbScan '\'' rest' false []
      | none => none
  | none =>
    match fbFindStart '\'' cs with
    | some rest' => fbScan '\'' rest' false []
    | none => none

/-- `extract_directives` (html_processor.py 664-768): first-match fast
patterns for each key, then the manual content fallback when the fast
content pattern found nothing but a content marker is present. -/
def extractDirectives (text : String) : List (String × String) :=
  let cs := text.data
  let ds :=
    optEntry "content" (searchKey "content" cs) ++
    optEntry "style" (searchKey "style" cs) ++
    optEntry "text" (searchKey "text" cs) ++
    optEntry "class" (searchKey "class" cs) ++
    optEntry "href" (searchKey "href" cs) ++
    optEntry "src" (searchKey "src" cs) ++
    optEntry "alt" (searchKey "alt" cs) ++
    optEntry "type" (searchKey "type" cs) ++
    optEntry "placeholder" (searchKey "placeholder" cs)
  if (lookupA "content" ds).isNone &&
      (containsSub "content " text || containsSub "content\x27" text ||
        containsSub "content\x22" text) then
    match contentFallback cs with
    | some v => ds ++ [("content", (⟨v⟩ : String))]
    | none => ds
  else ds

/-- The spec's side condition on directive values, phrased from its words:
the value contains no unescaped double quote (every `"` is consumed by a
preceding backslash escape). -/
def specUnescapedQuoteFree : List Char → Bool
  | [] => true
  | c :: cs =>
    if c = '\\' then
      match cs with
      | [] => true
      | _ :: cs2 => specUnescapedQuoteFree cs2
    else if c = '"' then false
    else specUnescapedQuoteFree cs

/-! ## `get_remaining_text` (html_processor.py 770-819) -/

/-- `content\s+q((?:[^q\\]|\\.)*)q` full-match removal pattern. -/
def matchContentQ (q : Char) (cs : List Char) :
    Option (List Char × List Char) :=
  match matchLit ("content".data) cs with
  | none => none
  | some r1 =>
    match matchWs1 r1 with
    | none => none
    | some r2 =>
      match r2 with
      | c :: r3 => if c = q then scanEscValue q r3 else none
      | [] => none

/-- `key\s+q([^q]+)q` removal pattern for a single quote character. -/
def matchKeyQ (key : String) (q : Char) (cs : List Char) :
    Option (List Char × List Char) :=
  match matchLit key.data cs with
  | none => none
  | some r1 =>
    match matchWs1 r1 with
    | none => none
    | some r2 => matchQuotedPlus q r2

/-- `with\s+style\s+q([^q]+)q` removal pattern. -/
def matchWithStyleQ (q : Char) (cs : List Char) :
    Option (List Char × List Char) :=
  match matchLit ("with".data) cs with
  | none => none
  | some r1 =>
    match matchWs1 r1 with
    | none => none
    | some r2 => matchKeyQ "style" q r2

/-- `class\s+([a-zA-Z0-9_-]+)` removal pattern. -/
def matchClassBare (cs : List Char) : Option (List Char × List Char) :=
  match matchLit ("class".data) cs with
  | none => none
  | some r1 =>
    match matchWs1 r1 with
    | none => none
    | some r2 => matchIdentPlus r2

/-- `\s+` as a full-match pattern (whitespace collapsing). -/
def matchWsRun (cs : List Char) : Option (List Char × List Char) :=
  (matchWs1 cs).map (fun r => ([], r))

/-- `</?[a-z][^>]*>`: a stray HTML tag. -/
def matchHtmlTag (cs : List Char) : Option (List Char × List Char) :=
  match cs with
  | '<' :: rest =>
    let core := fun (r : List Char) =>
      match r with
      | c :: r' =>
        if c.isLower then (takeUntilChar '>' r').map (fun p => ([], p.2))
        else none
      | [] => none
    match rest with
    | '/' :: r2 =>
      (match core r2 with
       | some x => some x
       | none => core rest)
    | _ => core rest
  | _ => none

/-- Delete all matches of a pattern (a `re.sub(pattern, '', ...)` pass). -/
def rmAll (m : List Char → Option (List Char × List Char))
    (cs : List Char) : List Char :=
  subAllF m (fun _ => []) cs

/-- `get_remaining_text` (html_processor.py 770-819): delete every directive
pattern in the listed order, collapse whitespace, strip, drop a trailing
`</div>`, then delete stray HTML tags.  The `directives` argument is kept
for signature fidelity; as in the source, the fixed pattern list is used
regardless of it. -/
def getRemainingText (text : String) (_directives : List (String × String)) :
    String :=
  let r := text.data
  let r := rmAll (matchContentQ '"') r
  let r := rmAll (matchContentQ '\'') r
  let r := rmAll (matchWithStyleQ '"') r
  let r := rmAll (matchWithStyleQ '\'') r
  let r := rmAll (matchKeyQ "style" '"') r
  let r := rmAll (matchKeyQ "style" '\'') r
  let r := rmAll (matchKeyQ "text" '"') r
  let r := rmAll (matchKeyQ "text" '\'') r
  let r := rmAll matchClassBare r
  let r := rmAll (matchKeyQ "class" '"') r
  let r := rmAll (matchKeyQ "class" '\'') r
  let r := rmAll (matchKeyQ "href" '"') r
  let r := rmAll (matchKeyQ "href" '\'') r
  let r := rmAll (matchKeyQ "src" '"') r
  let r := rmAll (matchKeyQ "src" '\'') r
  let r := rmAll (matchKeyQ "alt" '"') r
  let r := rmAll (matchKeyQ "alt" '\'') r
  let r := rmAll (matchKeyQ "type" '"') r
  let r := rmAll (matchKeyQ "type" '\'') r
  let r := rmAll (matchKeyQ "placeholder" '"') r
  let r := rmAll (matchKeyQ "placeholder" '\'') r
  let r := stripChars (subAllF matchWsRun (fun _ => [' ']) r)
  let r := if ("</div>".data).isSuffixOf r then r.take (r.length - 6) else r
  let r := rmAll matchHtmlTag r
  ⟨r⟩

end AICSS

-- development checks against the traced Python behaviour
theorem aicss_ed_check1 :
    AICSS.extractDirectives "text \x22hello\x22" = [("text", "hello")] := by
  decide

theorem aicss_ed_check2 :
    AICSS.extractDirectives "content \x22she said \x22hi\x22\x22 with style \x22bold\x22"
      = [("content", "she said "), ("style", "bold")] := by
  decide

theorem aicss_ed_check3 :
    AICSS.extractDirectives "text \x22Go\x22 with style \x22primary, rounded\x22"
      = [("style", "primary, rounded"), ("text", "Go")] := by
  decide

theorem aicss_ed_check4 :
    AICSS.extractDirectives "class foo with style \x22red text\x22"
      = [("style", "red text"), ("class", "foo")] := by
  decide

theorem aicss_ed_check5 :
    AICSS.extractDirectives "content \x27single\x27 with style \x27blue\x27"
      = [("content", "single"), ("style", "blue")] := by
  decide

theorem aicss_rt_check1 :
    AICSS.getRemainingText "text \x22hello\x22" [("text", "hello")] = "" := by
  decide

namespace AICSS

/-! ## CSS generation (`nl_to_css_fast`, engine.py 563-593)

`process_description` runs the external sentence-transformer models; per the
spec it is a pure black-box `resolve_style : text → property map` and is
taken as a parameter.  `nl_to_css_fast` renders its result: the empty string
for an empty property map, otherwise `selector { lines }`. -/

/-- The rendering part of `nl_to_css_fast`: `selector {` + one indented
`name: value;` line per property + `}`, joined with newlines. -/
def renderCss (selector : String) (properties : List (String × String)) :
    String :=
  String.intercalate "\n"
    ([selector ++ " \x7b"] ++
      properties.map (fun p => "  " ++ p.1 ++ ": " ++ p.2 ++ ";") ++
      ["\x7d"])

/-- `nl_to_css_fast(description, selector)` with the external
`process_description` abstracted as `resolver`. -/
def nlToCssFast (resolver : String → List (String × String))
    (description selector : String) : String :=
  let properties := resolver description
  if properties.isEmpty then "" else renderCss selector properties

/-! ## `generate_html_from_tag` (html_processor.py 441-548) -/

def specialTags : List String :=
  ["button", "input", "textarea", "div", "p", "h1", "h2", "h3", "img", "a"]

/-- The `content`-resolution shared by the `div` and unknown-tag branches:
explicit `content` directive, else `get_remaining_text`, else the literal
placeholder when that is empty or whitespace-only. -/
def divContentOf (description : String) (directives : List (String × String)) :
    String :=
  match lookupA "content" directives with
  | some c => c
  | none =>
    let content := getRemainingText description directives
    if isBlank content then "AI-generated content" else content

def generateHtmlFromTag (tagName description : String) : String :=
  let baseTag : String :=
    if strStartsWith tagName "ai" then ⟨tagName.data.drop 2⟩ else tagName
  let directives := extractDirectives description
  let aicssAttr := match lookupA "style" directives with
    | some s => " aicss=\x22" ++ s ++ "\x22"
    | none => ""
  let classAttr := match lookupA "class" directives with
    | some c0 =>
      let c := if strStartsWith c0 "\x22" && strEndsWith c0 "\x22" then
          ⟨(c0.data.drop 1).dropLast⟩ else c0
      " class=\x22" ++ c ++ "\x22"
    | none => ""
  let attributes := aicssAttr ++ classAttr
  if baseTag = "button" then
    let t := (lookupA "text" directives).getD "Button"
    "<button type=\x22button\x22" ++ attributes ++ ">" ++ t ++ "</button>"
  else if baseTag = "input" then
    let ty := (lookupA "type" directives).getD "text"
    let ph := (lookupA "placeholder" directives).getD ""
    "<input type=\x22" ++ ty ++ "\x22 placeholder=\x22" ++ ph ++ "\x22" ++
      attributes ++ ">"
  else if baseTag = "textarea" then
    let ph := (lookupA "placeholder" directives).getD ""
    let c := (lookupA "content" directives).getD ""
    "<textarea placeholder=\x22" ++ ph ++ "\x22" ++ attributes ++ ">" ++ c ++
      "</textarea>"
  else if baseTag = "a" then
    let href := (lookupA "href" directives).getD "#"
    let t := (lookupA "text" directives).getD "Link"
    "<a href=\x22" ++ href ++ "\x22" ++ attributes ++ ">" ++ t ++ "</a>"
  else if baseTag = "img" then
    let src := (lookupA "src" directives).getD
      "https://via.placeholder.com/300x200"
    let alt := (lookupA "alt" directives).getD ""
    "<img src=\x22" ++ src ++ "\x22 alt=\x22" ++ alt ++ "\x22" ++ attributes ++
      ">"
  else if baseTag = "p" || baseTag = "h1" || baseTag = "h2" || baseTag = "h3"
      then
    let t := (lookupA "text" directives).getD (pyUpper baseTag ++ " Text")
    "<" ++ baseTag ++ attributes ++ ">" ++ t ++ "</" ++ baseTag ++ ">"
  else
    -- the `div` branch and the unknown-tag fallback coincide
    "<div" ++ attributes ++ ">" ++ divContentOf description directives ++
      "</div>"

/-! ## `generate_html_from_description` (html_processor.py 551-661) -/

/-- `re.search(r'aicss="([^"]+)"', description)`. -/
def matchAicssAttr (cs : List Char) : Option (List Char × List Char) :=
  match matchLit ("aicss=\x22".data) cs with
  | none => none
  | some r => matchQuotedPlus '"' ('"' :: r)

/-- `re.search(r'submit button with aicss="([^"]+)"', description)`. -/
def matchSubmitAicssAttr (cs : List Char) : Option (List Char × List Char) :=
  match matchLit ("submit button with ".data) cs with
  | none => none
  | some r => matchAicssAttr r

def contactFormHtml (buttonLine : String) : String :=
  "<div class=\x22contact-form\x22>\n" ++
  "  <h3>Contact Us</h3>\n" ++
  "  <form>\n" ++
  "    <div class=\x22form-group\x22>\n" ++
  "      <label for=\x22name\x22>Name:</label>\n" ++
  "      <input type=\x22text\x22 id=\x22name\x22 name=\x22name\x22 placeholder=\x22Your name\x22 required>\n" ++
  "    </div>\n" ++
  "    <div class=\x22form-group\x22>\n" ++
  "      <label for=\x22email\x22>Email:</label>\n" ++
  "      <input type=\x22email\x22 id=\x22email\x22 name=\x22email\x22 placeholder=\x22Your email\x22 required>\n" ++
  "    </div>\n" ++
  "    <div class=\x22form-group\x22>\n" ++
  "      <label for=\x22message\x22>Message:</label>\n" ++
  "      <textarea id=\x22message\x22 name=\x22message\x22 placeholder=\x22Your message\x22 required></textarea>\n" ++
  "    </div>\n" ++
  buttonLine ++
  "  </form>\n" ++
  "</div>"

def navbarHtml : String :=
  "<nav class=\x22navbar\x22>\n" ++
  "  <div class=\x22logo\x22>Company Name</div>\n" ++
  "  <ul class=\x22nav-links\x22>\n" ++
  "    <li><a href=\x22#\x22>Home</a></li>\n" ++
  "    <li><a href=\x22#\x22>About</a></li>\n" ++
  "    <li><a href=\x22#\x22>Services</a></li>\n" ++
  "    <li><a href=\x22#\x22>Contact</a></li>\n" ++
  "  </ul>\n" ++
  "</nav>"

def galleryItemHtml (i : Nat) : String :=
  "  <div class=\x22gallery-item\x22>\n" ++
  "    <img src=\x22https://via.placeholder.com/300x200?text=Image+" ++
    toString i ++ "\x22 alt=\x22Image " ++ toString i ++ "\x22>\n" ++
  "    <div class=\x22caption\x22>Image " ++ toString i ++ " Caption</div>\n" ++
  "  </div>\n"

def galleryHtml : String :=
  "<div class=\x22gallery\x22>\n" ++
    String.join ((List.range 6).map (fun i => galleryItemHtml (i + 1))) ++
  "</div>"

def generateHtmlFromDescription (description : String) : String :=
  let low := pyLower description
  if containsSub "contact form" low then
    let buttonLine := match searchM matchSubmitAicssAttr description.data with
      | some (v, _) =>
        "    <button type=\x22submit\x22 aicss=\x22" ++ (⟨v⟩ : String) ++
          "\x22>Submit</button>\n"
      | none => "    <button type=\x22submit\x22>Submit</button>\n"
    let html := contactFormHtml buttonLine
    match searchM matchAicssAttr description.data with
    | some (v, _) =>
      strReplaceAll "<div class=\x22contact-form\x22>"
        ("<div class=\x22contact-form\x22 aicss=\x22" ++ (⟨v⟩ : String) ++ "\x22>")
        html
    | none => html
  else if containsSub "navigation" low || containsSub "navbar" low then
    match searchM matchAicssAttr description.data with
    | some (v, _) =>
      strReplaceAll "<nav class=\x22navbar\x22>"
        ("<nav class=\x22navbar\x22 aicss=\x22" ++ (⟨v⟩ : String) ++ "\x22>")
        navbarHtml
    | none => navbarHtml
  else if containsSub "gallery" low || containsSub "images" low then
    match searchM matchAicssAttr description.data with
    | some (v, _) =>
      strReplaceAll "<div class=\x22gallery\x22>"
        ("<div class=\x22gallery\x22 aicss=\x22" ++ (⟨v⟩ : String) ++ "\x22>")
        galleryHtml
    | none => galleryHtml
  else
    let directives := extractDirectives description
    let styleAttr := match lookupA "style" directives with
      | some s => " aicss=\x22" ++ s ++ "\x22"
      | none => ""
    let content := divContentOf description directives
    "<div class=\x22ai-generated\x22" ++ styleAttr ++ ">\n  " ++ content ++
      "\n</div>"

/-! ## `replace_ai_tag` (html_processor.py 1079-1114), the regex
fallback pass of `process_ai_tags` -/

/-- `re.sub(r'</div>\s*$', '', content)` (line 1095). -/
def stripTrailingDivWs (c : String) : String :=
  let core := (c.data.reverse.dropWhile isSpaceChar).reverse
  if ("</div>".data).isSuffixOf core then ⟨core.take (core.length - 6)⟩ else c

/-- The inner-content selection of `replace_ai_tag` (lines 1090-1112):
explicit `content` (with trailing-`style`-remnant cleanup), else explicit
`text`, else the remaining text, else the literal placeholder. -/
def replaceAiTagContent (tagContent : String) : String :=
  let directives := extractDirectives tagContent
  match lookupA "content" directives with
  | some c0 =>
    let c1 := stripTrailingDivWs c0
    (match lookupA "style" directives with
     | some st =>
       if strEndsWith c1 ("with style \x22" ++ st ++ "\x22") ||
           strEndsWith c1 ("with style \x27" ++ st ++ "\x27") then
         strDropRight c1 ("with style \x22".length + st.length + 1)
       else if strEndsWith c1 ("style \x22" ++ st ++ "\x22") ||
           strEndsWith c1 ("style \x27" ++ st ++ "\x27") then
         strDropRight c1 ("style \x22".length + st.length + 1)
       else c1
     | none => c1)
  | none =>
    match lookupA "text" directives with
    | some t => t
    | none =>
      let content := getRemainingText tagContent directives
      if isBlank content then "AI-generated content" else content

/-- `replace_ai_tag(match)` (lines 1079-1114): the replacement string for a
matched `<ai...>content</ai...>` span. -/
def replaceAiTag (tagContent : String) : String :=
  let directives := extractDirectives tagContent
  let styleAttr := match lookupA "style" directives with
    | some s => " aicss=\x22" ++ s ++ "\x22"
    | none => ""
  "<div" ++ styleAttr ++ ">" ++ replaceAiTagContent tagContent ++ "</div>"

end AICSS

-- development checks against the traced Python behaviour
theorem aicss_gt_check1 :
    AICSS.generateHtmlFromTag "aibutton" "text \x22Go\x22 with style \x22primary, rounded\x22"
      = "<button type=\x22button\x22 aicss=\x22primary, rounded\x22>Go</button>" := by
  decide

theorem aicss_gt_check2 :
    AICSS.generateHtmlFromTag "aidiv" "text \x22hello\x22"
      = "<div>AI-generated content</div>" := by
  decide

theorem aicss_gt_check3 :
    AICSS.generateHtmlFromTag "aispan" "some plain words"
      = "<div>some plain words</div>" := by
  decide

theorem aicss_gt_check4 :
    AICSS.generateHtmlFromTag "aiinput" "type \x22email\x22 placeholder \x22Your email\x22"
      = "<input type=\x22email\x22 placeholder=\x22Your email\x22>" := by
  decide

namespace AICSS

/-! ## MD5 (`hashlib.md5`)

`_generate_semantic_class_name` and the `328`-loop id generation of
`process_html_file` truncate MD5 hex digests.  MD5 is embedded over `Nat`
with explicit reduction modulo `2^32`; inputs in this development are ASCII,
so a character's code point is its byte. -/

def md5K : List Nat :=
  [0xd76aa478, 0xe8c7b756, 0x242070db, 0xc1bdceee,
   0xf57c0faf, 0x4787c62a, 0xa8304613, 0xfd469501,
   0x698098d8, 0x8b44f7af, 0xffff5bb1, 0x895cd7be,
   0x6b901122, 0xfd987193, 0xa679438e, 0x49b40821,
   0xf61e2562, 0xc040b340, 0x265e5a51, 0xe9b6c7aa,
   0xd62f105d, 0x02441453, 0xd8a1e681, 0xe7d3fbc8,
   0x21e1cde6, 0xc33707d6, 0xf4d50d87, 0x455a14ed,
   0xa9e3e905, 0xfcefa3f8, 0x676f02d9, 0x8d2a4c8a,
   0xfffa3942, 0x8771f681, 0x6d9d6122, 0xfde5380c,
   0xa4beea44, 0x4bdecfa9, 0xf6bb4b60, 0xbebfbc70,
   0x289b7ec6, 0xeaa127fa, 0xd4ef3085, 0x04881d05,
   0xd9d4d039, 0xe6db99e5, 0x1fa27cf8, 0xc4ac5665,
   0xf4292244, 0x432aff97, 0xab9423a7, 0xfc93a039,
   0x655b59c3, 0x8f0ccc92, 0xffeff47d, 0x85845dd1,
   0x6fa87e4f, 0xfe2ce6e0, 0xa3014314, 0x4e0811a1,
   0xf7537e82, 0xbd3af235, 0x2ad7d2bb, 0xeb86d391]

def md5S : List Nat :=
  [7, 12, 17, 22, 7, 12, 17, 22, 7, 12, 17, 22, 7, 12, 17, 22,
   5, 9, 14, 20, 5, 9, 14, 20, 5, 9, 14, 20, 5, 9, 14, 20,
   4, 11, 16, 23, 4, 11, 16, 23, 4, 11, 16, 23, 4, 11, 16, 23,
   6, 10, 15, 21, 6, 10, 15, 21, 6, 10, 15, 21, 6, 10, 15, 21]

def w32 : Nat := 4294967296

def rotl32 (x s : Nat) : Nat := (x * 2 ^ s + x / 2 ^ (32 - s)) % w32

def not32 (x : Nat) : Nat := 4294967295 ^^^ x

/-- The round function and message index of round `i`. -/
def md5FG (i b c d : Nat) : Nat × Nat :=
  if i < 16 then ((b &&& c) ||| (not32 b &&& d), i)
  else if i < 32 then ((d &&& b) ||| (not32 d &&& c), (5 * i + 1) % 16)
  else if i < 48 then (b ^^^ c ^^^ d, (3 * i + 5) % 16)
  else (c ^^^ (b ||| not32 d), (7 * i) % 16)

def md5Round (M : List Nat) (st : Nat × Nat × Nat × Nat) (i : Nat) :
    Nat × Nat × Nat × Nat :=
  let (a, b, c, d) := st
  let (f, g) := md5FG i b c d
  let f2 := (f + a + md5K.getD i 0 + M.getD g 0) % w32
  (d, (b + rotl32 f2 (md5S.getD i 0)) % w32, b, c)

/-- Group a 64-byte chunk into 16 little-endian 32-bit words. -/
def md5Words : List Nat → List Nat
  | b0 :: b1 :: b2 :: b3 :: rest =>
    (b0 + 256 * (b1 + 256 * (b2 + 256 * b3))) :: md5Words rest
  | _ => []

def md5Chunk (st : Nat × Nat × Nat × Nat) (chunk : List Nat) :
    Nat × Nat × Nat × Nat :=
  let M := md5Words chunk
  let (a, b, c, d) := st
  let (a', b', c', d') := (List.range 64).foldl (md5Round M) (a, b, c, d)
  ((a + a') % w32, (b + b') % w32, (c + c') % w32, (d + d') % w32)

/-- Split into 64-byte chunks (the input length is a multiple of 64). -/
def md5Chunks : List Nat → List Nat → List (List Nat)
  | [], acc => if acc.isEmpty then [] else [acc.reverse]
  | b :: bs, acc =>
    if acc.length = 63 then (b :: acc).reverse :: md5Chunks bs []
    else md5Chunks bs (b :: acc)

/-- `n` little-endian bytes of `v`. -/
def leBytes : Nat → Nat → List Nat
  | 0, _ => []
  | n + 1, v => v % 256 :: leBytes n (v / 256)

/-- MD5 padding: `0x80`, zeros to 56 mod 64, 8-byte little-endian bit
length. -/
def md5Pad (bytes : List Nat) : List Nat :=
  let len := bytes.length
  let padLen := (119 - len % 64) % 64
  bytes ++ [0x80] ++ List.replicate padLen 0 ++ leBytes 8 ((8 * len) % 2 ^ 64)

def hexDigit (n : Nat) : Char :=
  if n < 10 then Char.ofNat (48 + n) else Char.ofNat (87 + n)

def byteHex (b : Nat) : List Char := [hexDigit (b / 16), hexDigit (b % 16)]

def md5Digest (bytes : List Nat) : List Nat :=
  let st0 : Nat × Nat × Nat × Nat :=
    (0x67452301, 0xefcdab89, 0x98badcfe, 0x10325476)
  let (a, b, c, d) := (md5Chunks (md5Pad bytes) []).foldl md5Chunk st0
  leBytes 4 a ++ leBytes 4 b ++ leBytes 4 c ++ leBytes 4 d

/-- `hashlib.md5(s.encode()).hexdigest()` for ASCII `s`. -/
def md5Hex (s : String) : String :=
  ⟨(md5Digest (s.data.map Char.toNat)).flatMap byteHex⟩

/-- The first `n` hex digits of the digest (`hexdigest()[:n]`). -/
def md5HexPrefix (n : Nat) (s : String) : String := ⟨(md5Hex s).data.take n⟩

/-! ## `_generate_semantic_class_name` (html_processor.py 95-142) -/

def semanticClassName (elementId elementTag description : String) : String :=
  let low := pyLower description
  let base := pyLower elementTag
  let c1 :=
    if containsSub "primary" low then base ++ "-primary"
    else if containsSub "secondary" low then base ++ "-secondary"
    else if containsSub "success" low then base ++ "-success"
    else if containsSub "danger" low || containsSub "error" low then
      base ++ "-danger"
    else if containsSub "warning" low then base ++ "-warning"
    else if containsSub "info" low then base ++ "-info"
    else base
  let c2 :=
    if containsSub "large" low then c1 ++ "-lg"
    else if containsSub "small" low then c1 ++ "-sm"
    else c1
  let c3 :=
    if containsSub "rounded" low then c2 ++ "-rounded"
    else if containsSub "outline" low then c2 ++ "-outline"
    else c2
  if c3 = base then base ++ "-" ++ md5HexPrefix 4 elementId else c3

end AICSS

-- development checks against hashlib.md5
set_option maxRecDepth 4000 in
theorem aicss_md5_check1 :
    AICSS.md5Hex "abc" = "900150983cd24fb0d6963f7d28e17f72" := by
  decide

set_option maxRecDepth 4000 in
theorem aicss_md5_check2 :
    AICSS.md5Hex "" = "d41d8cd98f00b204e9800998ecf8427e" := by
  decide

set_option maxRecDepth 4000 in
theorem aicss_md5_check3 :
    AICSS.md5HexPrefix 4 "id261" = "2691" ∧
      AICSS.md5HexPrefix 4 "id278" = "2691" := by
  constructor <;> decide

namespace AICSS

/-! ## Document tree

The data model of §3 of the spec: an ordered tree of element and text nodes,
as built by the external tree builder (BeautifulSoup).  `canBeEmpty` is
BeautifulSoup's `can_be_empty_element` flag, assigned by the parser (for
`html.parser` it is true exactly for the fixed set of HTML void elements);
`Tag.is_empty_element` is this flag conjoined with having no contents. -/

inductive Node where
  | elem (name : String) (attrs : List (String × String)) (canBeEmpty : Bool)
      (children : List Node)
  | text (s : String)

mutual

/-- BeautifulSoup `Tag.string`: a text node's string; for an element, the
string of its unique child. -/
def bs4String : Node → Option String
  | .text s => some s
  | .elem _ _ _ cs => bs4StringList cs

/-- `Tag.string` read off an element's child list: defined only for exactly
one child. -/
def bs4StringList : List Node → Option String
  | [c] => bs4String c
  | _ => none

end

/-- `tag.string.strip() if tag.string else ""`, the description read of the
tag-expansion passes. -/
def descriptionOf (cs : List Node) : String :=
  match bs4StringList cs with
  | some s => pyStrip s
  | none => ""

/-- Python `str.split()` (split on whitespace runs, no empty parts). -/
def splitWsGo : List Char → List Char → List String
  | [], acc => if acc.isEmpty then [] else [⟨acc.reverse⟩]
  | c :: cs, acc =>
    if isSpaceChar c then
      if acc.isEmpty then splitWsGo cs []
      else (⟨acc.reverse⟩ : String) :: splitWsGo cs []
    else splitWsGo cs (c :: acc)

def splitWs (s : String) : List String := splitWsGo s.data []

/-- Python `str.split("\n")` (keeps empty parts). -/
def splitNlGo : List Char → List Char → List String
  | [], acc => [⟨acc.reverse⟩]
  | c :: cs, acc =>
    if c = '\n' then (⟨acc.reverse⟩ : String) :: splitNlGo cs []
    else splitNlGo cs (c :: acc)

def splitNl (s : String) : List String := splitNlGo s.data []

/-- Attribute read (BeautifulSoup `tag.get`); attribute names are unique. -/
def lookupAttr (k : String) (a : List (String × String)) : Option String :=
  lookupA k a

/-- Attribute write (`tag[k] = v`): replace in place, else append. -/
def setAttr (k v : String) : List (String × String) → List (String × String)
  | [] => [(k, v)]
  | (k', v') :: rest =>
    if k' = k then (k, v) :: rest else (k', v') :: setAttr k v rest

/-- Attribute delete (`del tag[k]`). -/
def eraseAttr (k : String) : List (String × String) → List (String × String)
  | [] => []
  | (k', v') :: rest => if k' = k then rest else (k', v') :: eraseAttr k rest

/-- Serialization `str(soup)`: tags with attributes in insertion order;
empty-element tags self-close, as BeautifulSoup renders them. -/
def renderAttrs (a : List (String × String)) : String :=
  String.join (a.map (fun p => " " ++ p.1 ++ "=\x22" ++ p.2 ++ "\x22"))

mutual

def render : Node → String
  | .text s => s
  | .elem n a ce cs =>
    if ce && cs.isEmpty then "<" ++ n ++ renderAttrs a ++ "/>"
    else "<" ++ n ++ renderAttrs a ++ ">" ++ renderList cs ++ "</" ++ n ++ ">"

def renderList : List Node → String
  | [] => ""
  | c :: cs => render c ++ renderList cs

end

mutual

/-- Whether `get_text(strip=True)` is non-empty: some descendant text node
contains a non-whitespace character. -/
def hasNonWsText : Node → Bool
  | .text s => !(stripChars s.data).isEmpty
  | .elem _ _ _ cs => hasNonWsTextList cs

def hasNonWsTextList : List Node → Bool
  | [] => false
  | c :: cs => hasNonWsText c || hasNonWsTextList cs

end

mutual

/-- Number of elements whose tag name carries the custom prefix `ai`. -/
def countAi : Node → Nat
  | .text _ => 0
  | .elem n _ _ cs =>
    (if strStartsWith n "ai" then 1 else 0) + countAiList cs

def countAiList : List Node → Nat
  | [] => 0
  | c :: cs => countAi c + countAiList cs

end

mutual

/-- Nesting depth of custom-prefixed elements: the largest number of
`ai`-elements on a root-to-leaf path. -/
def aiDepth : Node → Nat
  | .text _ => 0
  | .elem n _ _ cs =>
    (if strStartsWith n "ai" then 1 else 0) + aiDepthList cs

def aiDepthList : List Node → Nat
  | [] => 0
  | c :: cs => max (aiDepth c) (aiDepthList cs)

end

end AICSS

-- reduction smoke tests for the tree layer
theorem aicss_tree_check1 :
    AICSS.render (.elem "div" [("id", "x")] false [.text "hi"]) =
      "<div id=\x22x\x22>hi</div>" := by
  decide

theorem aicss_tree_check2 :
    AICSS.countAi
      (.elem "aidiv" [] false [.elem "p" [] false [.text "x"]]) = 1 := by
  decide

theorem aicss_tree_check3 :
    AICSS.descriptionOf
      [.elem "aibutton" [] false [.text " text \x22Go\x22 "]] =
      "text \x22Go\x22" := by
  decide

namespace AICSS

/-! ## `aistyle` global style container (`process_ai_tags`,
html_processor.py 899-977) -/

/-- `(\d+\.?\d*)`: digits, optional dot, digits. -/
def matchNumber (cs : List Char) : Option (List Char × List Char) :=
  let ds := cs.takeWhile Char.isDigit
  if ds.isEmpty then none
  else
    match cs.drop ds.length with
    | '.' :: r2 =>
      let ds2 := r2.takeWhile Char.isDigit
      some (ds ++ '.' :: ds2, r2.drop ds2.length)
    | rest => some (ds, rest)

/-- `line height (?:is )?(\d+\.?\d*)` (engine-side body heuristics,
html_processor.py 931). -/
def matchLineHeight (cs : List Char) : Option (List Char × List Char) :=
  match matchLit ("line height ".data) cs with
  | none => none
  | some r =>
    match matchLit ("is ".data) r with
    | some r2 =>
      (match matchNumber r2 with
       | some x => some x
       | none => matchNumber r)
    | none => matchNumber r

/-- `color (?:is )?(#[0-9a-f]{3,6})` (html_processor.py 937). -/
def matchColorHex (cs : List Char) : Option (List Char × List Char) :=
  let core := fun (r : List Char) =>
    match r with
    | '#' :: r2 =>
      let hs := (r2.takeWhile isHexLower).take 6
      if hs.length < 3 then none
      else some ('#' :: hs, r2.drop hs.length)
    | _ => none
  match matchLit ("color ".data) cs with
  | none => none
  | some r =>
    match matchLit ("is ".data) r with
    | some r2 =>
      (match core r2 with
       | some x => some x
       | none => core r)
    | none => core r

/-- The fixed body-selector keyword rules (html_processor.py 926-944). -/
def bodyProperties (styleDesc : String) : List (String × String) :=
  let low := pyLower styleDesc
  let p1 :=
    if containsSub "font family" low then
      [("font-family", "\x27Segoe UI\x27, system-ui, sans-serif")]
    else []
  let p2 :=
    if containsSub "line height" low then
      match searchM matchLineHeight low.data with
      | some (v, _) => [("line-height", (⟨v⟩ : String))]
      | none => [("line-height", "1.6")]
    else []
  let p3 :=
    if containsSub "color" low then
      match searchM matchColorHex low.data with
      | some (v, _) => [("color", (⟨v⟩ : String))]
      | none => [("color", "#444444")]
    else []
  let p4 :=
    if containsSub "padding" low &&
        (containsSub "lots" low || containsSub "large" low) then
      [("padding", "2rem")]
    else []
  p1 ++ p2 ++ p3 ++ p4

/-- The manually generated `body { ... }` rule (html_processor.py 948-951). -/
def renderBodyCss (props : List (String × String)) : String :=
  "body \x7b\n" ++
    String.join (props.map (fun p => "  " ++ p.1 ++ ": " ++ p.2 ++ ";\n")) ++
    "\x7d"

/-- One `selector: description` line of an `aistyle` block
(html_processor.py 913-962). -/
def processAistyleLine (resolver : String → List (String × String))
    (line : String) : List String :=
  let l := pyStrip line
  if containsSub ":" l then
    match takeUntilChar ':' l.data with
    | none => []
    | some (selPart, stylePart) =>
      let selector := pyStrip ⟨selPart⟩
      let styleDesc := pyStrip ⟨stylePart⟩
      if containsSub "class" selector then
        let baseSelector := pyStrip (strReplaceAll "class" "" selector)
        if baseSelector = "body" then
          let props := bodyProperties styleDesc
          if props.isEmpty then [] else [renderBodyCss props]
        else
          let css := nlToCssFast resolver styleDesc baseSelector
          if css = "" then [] else [css]
      else
        let css := nlToCssFast resolver styleDesc selector
        if css = "" then [] else [css]
  else []

/-- All CSS fragments produced from one `aistyle` description. -/
def aistyleCss (resolver : String → List (String × String))
    (description : String) : List String :=
  (splitNl description).flatMap (processAistyleLine resolver)

mutual

/-- Collect the CSS of every `aistyle` tag, in document order
(html_processor.py 900-962). -/
def collectAistyle (resolver : String → List (String × String)) :
    Node → List String
  | .text _ => []
  | .elem n _ _ cs =>
    (if n = "aistyle" then
      (let d := descriptionOf cs
       if d = "" then [] else aistyleCss resolver d)
     else []) ++ collectAistyleList resolver cs

def collectAistyleList (resolver : String → List (String × String)) :
    List Node → List String
  | [] => []
  | c :: cs => collectAistyle resolver c ++ collectAistyleList resolver cs

end

mutual

/-- `tag.extract()` of every `aistyle` tag (html_processor.py 965). -/
def removeAistyle : Node → Option Node
  | .text s => some (.text s)
  | .elem n a ce cs =>
    if n = "aistyle" then none
    else some (.elem n a ce (removeAistyleList cs))

def removeAistyleList : List Node → List Node
  | [] => []
  | c :: cs =>
    match removeAistyle c with
    | some c' => c' :: removeAistyleList cs
    | none => removeAistyleList cs

end

mutual

/-- `soup.find('head').append(child)`: append to the first `head` element in
document order; no-op when the document has none (html_processor.py
975-977). -/
def appendHeadNode (child : Node) : Node → (Node × Bool)
  | .text s => (.text s, false)
  | .elem n a ce cs =>
    if n = "head" then (.elem n a ce (cs ++ [child]), true)
    else
      let (cs', f) := appendHeadList child cs
      (.elem n a ce cs', f)

def appendHeadList (child : Node) : List Node → (List Node × Bool)
  | [] => ([], false)
  | c :: cs =>
    let (c', f) := appendHeadNode child c
    if f then (c' :: cs, true)
    else
      let (cs', f') := appendHeadList child cs
      (c :: cs', f')

end

/-- The `aistyle` phase of `process_ai_tags` (html_processor.py 899-977):
collect the generated CSS, remove every `aistyle` node, and append one style
tag holding all of it to the head. -/
def aistylePhase (resolver : String → List (String × String)) (doc : Node) :
    Node :=
  let parts := collectAistyle resolver doc
  let doc' := (removeAistyle doc).getD doc
  if parts.isEmpty then doc'
  else
    let styleTag : Node := .elem "style" [("type", "text/css")] false
      [.text ("\n/* AI-generated styles */\n" ++
        String.intercalate "\n" parts)]
    (appendHeadNode styleTag doc').1

end AICSS

-- development check: scenario 3 body heuristics
theorem aicss_aistyle_check1 :
    AICSS.processAistyleLine (fun _ => [])
      "body class: font family sans, line height 2, color #222222"
      = ["body \x7b\n  font-family: \x27Segoe UI\x27, system-ui, sans-serif;\n  line-height: 2;\n  color: #222222;\n\x7d"] := by
  decide

namespace AICSS

/-! ## Tag expansion (`process_html_recursively`, html_processor.py 980-1075)

One pass consists of three whole-document sweeps, exactly as in the source:
the `aihtml` sweep (989-999), the generic custom-tag sweep (1002-1054) and
the self-closing sweep (1057-1066).  `pf` is the external fragment parser
(`BeautifulSoup(generated_html, 'html.parser')`), a black-box collaborator.
Sweeps rewrite top-down and never descend into freshly inserted replacement
content, matching the source, whose per-name `find_all` snapshots never
revisit replaced subtrees within a pass. -/

/-- `re.search(r'style\s*=\s*["\']([^"\']+)["\']', ...)` of the `with`
attribute branch (html_processor.py 1040). -/
def matchStyleEqAttr (cs : List Char) : Option (List Char × List Char) :=
  match matchLit ("style".data) cs with
  | none => none
  | some r1 =>
    match (r1.dropWhile isSpaceChar) with
    | '=' :: r2 =>
      let r3 := r2.dropWhile isSpaceChar
      match r3 with
      | c :: r4 =>
        if c = '"' || c = '\'' then
          let v := r4.takeWhile (fun d => !(d = '"' || d = '\''))
          match r4.drop v.length with
          | d :: r5 =>
            if (d = '"' || d = '\'') && !v.isEmpty then some (v, r5) else none
          | [] => none
        else none
      | [] => none
    | _ => none

/-- Whether a node is an element (bs4 `content.name` truthiness). -/
def isElem : Node → Bool
  | .elem _ _ _ _ => true
  | .text _ => false

/-- Lines 1012-1035: wrap the parsed replacement.  A single parsed element
replaces the tag directly; an empty parse yields a placeholder `div`;
anything else is wrapped in a `div.ai-generated-wrapper` keeping only
element children. -/
def genericReplacement (pf : String → List Node) (name desc : String) :
    Node :=
  match pf (generateHtmlFromTag name desc) with
  | [] => .elem "div" [("class", "ai-generated")] false []
  | [c] =>
    if isElem c then c
    else .elem "div" [("class", "ai-generated-wrapper")] false []
  | cs => .elem "div" [("class", "ai-generated-wrapper")] false
      (cs.filter isElem)

/-- Lines 1043-1053: the replacement for a tag whose `with` attribute
carries an inline `style=...`. -/
def withStyleDiv (a : List (String × String)) (v : List Char) : Node :=
  let base := [("class", "ai-generated"),
    ("style", "/* AI Style: " ++ (⟨v⟩ : String) ++ " */")]
  .elem "div"
    (a.foldl (fun acc p =>
      if p.1 = "with" || p.1 = "style" then acc else setAttr p.1 p.2 acc) base)
    false []

/-- Lines 1057-1065: the replacement for a self-closing custom tag: a `div`
given the marker class first and then every original attribute except
`style`. -/
def selfClosingAiReplacement (a : List (String × String)) : Node :=
  .elem "div"
    (a.foldl (fun acc p =>
      if p.1 = "style" then acc else setAttr p.1 p.2 acc)
      [("class", "ai-generated")])
    false []

mutual

/-- Sweep 1 (989-999): replace `aihtml` tags that carry a string
description; the parsed generated HTML is spliced in place. -/
def aihtmlSweep (pf : String → List Node) : Node → (List Node × Bool)
  | .text s => ([.text s], false)
  | .elem n a ce cs =>
    if n = "aihtml" && descriptionOf cs ≠ "" then
      (pf (generateHtmlFromDescription (descriptionOf cs)), true)
    else
      let (cs', f) := aihtmlSweepList pf cs
      ([.elem n a ce cs'], f)

def aihtmlSweepList (pf : String → List Node) :
    List Node → (List Node × Bool)
  | [] => ([], false)
  | c :: cs =>
    let (c', f) := aihtmlSweep pf c
    let (cs', f') := aihtmlSweepList pf cs
    (c' ++ cs', f || f')

end

mutual

/-- Sweep 2 (1002-1054): rewrite custom-prefixed tags (except `aistyle`)
that carry a string description via `generate_html_from_tag`; tags with an
empty description but a `with ... style=...` attribute become a marker
`div`. -/
def genericSweep (pf : String → List Node) : Node → (Node × Bool)
  | .text s => (.text s, false)
  | .elem n a ce cs =>
    if strStartsWith n "ai" && n ≠ "aistyle" then
      let desc := descriptionOf cs
      if desc ≠ "" then (genericReplacement pf n desc, true)
      else
        match lookupAttr "with" a with
        | some w =>
          if w ≠ "" && containsSub "style" w then
            match searchM matchStyleEqAttr w.data with
            | some (v, _) => (withStyleDiv a v, true)
            | none =>
              let (cs', f) := genericSweepList pf cs
              (.elem n a ce cs', f)
          else
            let (cs', f) := genericSweepList pf cs
            (.elem n a ce cs', f)
        | none =>
          let (cs', f) := genericSweepList pf cs
          (.elem n a ce cs', f)
    else
      let (cs', f) := genericSweepList pf cs
      (.elem n a ce cs', f)

def genericSweepList (pf : String → List Node) :
    List Node → (List Node × Bool)
  | [] => ([], false)
  | c :: cs =>
    let (c', f) := genericSweep pf c
    let (cs', f') := genericSweepList pf cs
    (c' :: cs', f || f')

end

mutual

/-- Sweep 3 (1057-1066): replace self-closing (empty-element) custom tags. -/
def selfClosingSweep : Node → (Node × Bool)
  | .text s => (.text s, false)
  | .elem n a ce cs =>
    if strStartsWith n "ai" && ce && cs.isEmpty then
      (selfClosingAiReplacement a, true)
    else
      let (cs', f) := selfClosingSweepList cs
      (.elem n a ce cs', f)

def selfClosingSweepList : List Node → (List Node × Bool)
  | [] => ([], false)
  | c :: cs =>
    let (c', f) := selfClosingSweep c
    let (cs', f') := selfClosingSweepList cs
    (c' :: cs', f || f')

end

/-- One pass of `process_html_recursively` (986-1066): the three sweeps in
order, with the combined change flag. -/
def expandPass (pf : String → List Node) (t : Node) : Node × Bool :=
  let (ts, f1) := aihtmlSweep pf t
  let t1 := match ts with
    | [u] => u
    | us => .elem "[document]" [] false us
  let (t2, f2) := genericSweep pf t1
  let (t3, f3) := selfClosingSweep t2
  (t3, f1 || f2 || f3)

/-- `process_html_recursively(html, max_depth, current_depth)`
(html_processor.py 980-1072): re-run the pass while it changed something
and depth remains.  The fuel argument equals `max_depth - current_depth`
and makes the recursion structural. -/
def expandGo (pf : String → List Node) (maxDepth : Nat) :
    Nat → Nat → Node → Node
  | 0, _, t => t
  | fuel + 1, depth, t =>
    if maxDepth ≤ depth then t
    else
      let (t', changed) := expandPass pf t
      if changed && depth < maxDepth - 1 then
        expandGo pf maxDepth fuel (depth + 1) t'
      else t'

def processHtmlRecursively (pf : String → List Node) (t : Node)
    (maxDepth : Nat := 5) : Node :=
  expandGo pf maxDepth maxDepth 0 t

mutual

/-- The final regex fallback (html_processor.py 1120-1123 together with the
fixpoint loop 253-284 of `process_html_file`): every custom-prefixed element
still present after expansion is rewritten by `replace_ai_tag` on its
serialized inner content — a `div` keeping only an `aicss` attribute from a
`style` directive — and every self-closing one becomes an empty
`div.ai-generated`.  The passes iterate over the serialized document until
no custom tag remains; accordingly the model rewrites nested occurrences
bottom-up, and markup re-emitted inside directive values (reduced to text by
the repeated rewriting and reparsing in the source) is modelled as text. -/
def regexCleanup : Node → Node
  | .text s => .text s
  | .elem n a ce cs =>
    let cs' := regexCleanupList cs
    if strStartsWith n "ai" then
      if ce && cs.isEmpty then .elem "div" [("class", "ai-generated")] false []
      else
        let tagContent := renderList cs'
        let attrs := match lookupA "style" (extractDirectives tagContent) with
          | some s => [("aicss", s)]
          | none => []
        .elem "div" attrs false [.text (replaceAiTagContent tagContent)]
    else .elem n a ce cs'

def regexCleanupList : List Node → List Node
  | [] => []
  | c :: cs => regexCleanup c :: regexCleanupList cs

end

/-- The expansion stages of `process_ai_tags` followed by the regex fallback
passes: after these, the claim of interest is that no custom tag remains. -/
def expandAndCleanup (pf : String → List Node) (maxDepth : Nat) (t : Node) :
    Node :=
  regexCleanup (processHtmlRecursively pf t maxDepth)

end AICSS

namespace AICSS

/-! ## Style extraction (`process_html_file`, html_processor.py 287-438)

The phases that run on the re-parsed document after tag expansion:

* `extract_style_descriptions` (37-78) on a parsed *copy* of the document
  (line 290) — only the returned rows survive; the ids it assigns inside the
  copy are discarded;
* the parallel first generation pass (293-318);
* the main loop over elements carrying the style-description attribute
  (325-374), which assigns ids, invokes the resolver, and replaces the
  attribute with the derived class;
* the stylesheet assembly (377-407);
* the final attribute cleanup (409-417).

The resolver may raise: it returns `Except Unit`, and the whole computation
is wrapped exactly like the source's `try`/`except`, which returns
`("", {})` (lines 434-438).  Resolver calls that occur after a raise are
short-circuited; the source aborts at the first exception and discards all
intermediate state, so the returned value agrees. -/

/-- One row of `extract_style_descriptions`: (element id, selector,
stripped description). -/
structure DescRow where
  elementId : String
  selector : String
  desc : String
  deriving DecidableEq

/-- The per-element body of `extract_style_descriptions` (html_processor.py
53-76): an element carrying the style-description attribute consumes an
index; a blank description contributes nothing else; otherwise a missing id
is filled with `aicss-{i+1}` and a row is appended, whose selector is the
id selector, prefixed by a tag.class selector when the element already has
classes. -/
def collectDescStep (n : String) (a : List (String × String))
    (st : Nat × List DescRow) : Nat × List DescRow :=
  let (i, rows) := st
  match lookupAttr "aicss" a with
  | none => (i, rows)
  | some v =>
    let desc := pyStrip v
    if desc = "" then (i + 1, rows)
    else
      let elementId := (lookupAttr "id" a).getD ("aicss-" ++ toString (i + 1))
      let classes := splitWs ((lookupAttr "class" a).getD "")
      let selector :=
        if classes.isEmpty then "#" ++ elementId
        else n ++ "." ++ String.intercalate "." classes ++ ", #" ++
          elementId
      (i + 1, rows ++ [⟨elementId, selector, desc⟩])

mutual

/-- `extract_style_descriptions` (html_processor.py 37-78): apply
`collectDescStep` to every element in document order. -/
def collectDesc : Node → (Nat × List DescRow) → (Nat × List DescRow)
  | .text _, st => st
  | .elem n a _ cs, st => collectDescList cs (collectDescStep n a st)

def collectDescList : List Node → (Nat × List DescRow) → (Nat × List DescRow)
  | [], st => st
  | c :: cs, st => collectDescList cs (collectDesc c st)

end

def extractStyleDescriptions (doc : Node) : List DescRow :=
  (collectDesc doc (0, [])).2

mutual

/-- `soup.find(id=element_id)` (html_processor.py 309): the first element in
document order whose id attribute equals the given id, returning its tag
name. -/
def findTagById (i : String) : Node → Option String
  | .text _ => none
  | .elem n a _ cs =>
    if lookupAttr "id" a = some i then some n else findTagByIdList i cs

def findTagByIdList (i : String) : List Node → Option String
  | [] => none
  | c :: cs =>
    match findTagById i c with
    | some r => some r
    | none => findTagByIdList i cs

end

/-- Assoc-list write with Python dict semantics (overwrite in place, else
append). -/
def setAssoc (k v : String) : List (String × String) → List (String × String)
  | [] => [(k, v)]
  | (k', v') :: rest =>
    if k' = k then (k, v) :: rest else (k', v') :: setAssoc k v rest

/-- The body of the parallel first generation pass, row by row. -/
def phase1Go (resolverE : String → Except Unit (List (String × String)))
    (doc : Node) (allRows : List DescRow) :
    List DescRow → (List (String × String) × List (String × String)) →
    Except Unit (List (String × String) × List (String × String))
  | [], acc => .ok acc
  | row :: rest, (styles, classes) =>
    match resolverE row.desc with
    | .error e => .error e
    | .ok props =>
      let css := if props.isEmpty then "" else renderCss row.selector props
      if css = "" then phase1Go resolverE doc allRows rest (styles, classes)
      else
        let styles' := setAssoc row.elementId css styles
        match findTagById row.elementId doc with
        | none => phase1Go resolverE doc allRows rest (styles', classes)
        | some tagName =>
          let desc := ((allRows.find? (fun r => r.elementId = row.elementId)
            ).map DescRow.desc).getD ""
          let cls := semanticClassName row.elementId tagName desc
          phase1Go resolverE doc allRows rest
            (styles', setAssoc row.elementId cls classes)

/-- The parallel first generation pass (html_processor.py 296-318): resolve
every row, keep non-empty CSS under the row's id, and derive a class name
when the element can be found by that id in the live document.  An
exception from any resolver call aborts the batch. -/
def phase1 (resolverE : String → Except Unit (List (String × String)))
    (doc : Node) (rows : List DescRow) :
    Except Unit (List (String × String) × List (String × String)) :=
  match rows with
  | [] => .ok ([], [])
  | _ => phase1Go resolverE doc rows rows ([], [])

/-- The state threaded through the main loop (html_processor.py 325-374):
a pending exception, the styles and class maps, and
`len(elements_with_aicss)`. -/
structure LoopState where
  err : Option Unit
  styles : List (String × String)
  classes : List (String × String)
  ewaCount : Nat

/-- The per-element body of the main loop (html_processor.py 328-374), with
the attribute replacement of lines 356-374 applied inline to the element it
concerns.  Elements with a blank description are skipped outright
(lines 329-331). -/
def loop328Step (resolverE : String → Except Unit (List (String × String)))
    (n : String) (a : List (String × String)) (ce : Bool) (cs : List Node)
    (st : LoopState) : List (String × String) × LoopState :=
  if st.err.isSome then (a, st)
  else
    match lookupAttr "aicss" a with
    | none => (a, st)
    | some v =>
      let desc := pyStrip v
      if desc = "" then (a, st)
      else
        let elementId :=
          match lookupAttr "id" a with
          | some i => i
          | none =>
            "aicss-" ++
              md5HexPrefix 8 (render (.elem n a ce cs) ++ toString st.ewaCount)
        let a1 := setAttr "id" elementId a
        match resolverE desc with
        | .error e => (a1, { st with err := some e })
        | .ok props =>
          let css :=
            if props.isEmpty then "" else renderCss ("#" ++ elementId) props
          if css = "" then (a1, st)
          else
            let cls := semanticClassName elementId n desc
            let a2 := eraseAttr "aicss" a1
            let a3 :=
              match lookupAttr "class" a2 with
              | some cv =>
                let classes := splitWs cv
                if cls ∈ classes then
                  setAttr "class" (String.intercalate " " classes) a2
                else
                  setAttr "class" (String.intercalate " " (classes ++ [cls]))
                    a2
              | none => setAttr "class" cls a2
            let a4 :=
              if strStartsWith elementId "aicss-" then eraseAttr "id" a3
              else a3
            (a4,
              { err := st.err,
                styles := setAssoc elementId css st.styles,
                classes := setAssoc elementId cls st.classes,
                ewaCount := st.ewaCount + 1 })

mutual

/-- Document-order traversal applying `loop328Step` to every element. -/
def loop328 (resolverE : String → Except Unit (List (String × String))) :
    Node → LoopState → (Node × LoopState)
  | .text s, st => (.text s, st)
  | .elem n a ce cs, st =>
    let (a', st') := loop328Step resolverE n a ce cs st
    let (cs', st'') := loop328List resolverE cs st'
    (.elem n a' ce cs', st'')

def loop328List (resolverE : String → Except Unit (List (String × String))) :
    List Node → LoopState → (List Node × LoopState)
  | [], st => ([], st)
  | c :: cs, st =>
    let (c', st') := loop328 resolverE c st
    let (cs', st'') := loop328List resolverE cs st'
    (c' :: cs', st'')

end

/-- One stylesheet entry (html_processor.py 384-389): the stored CSS with
the id selector rewritten to the derived class selector.  Entries whose id
obtained no class name are skipped. -/
def stylesheetEntries (styles classes : List (String × String)) :
    List String :=
  styles.foldl
    (fun acc p =>
      match lookupA p.1 classes with
      | some cls =>
        acc ++ [strReplaceAll ("#" ++ p.1) ("." ++ cls) p.2 ++ "\n"]
      | none => acc)
    []

/-- The generated style node (html_processor.py 379-389). -/
def generatedStyleTag (styles classes : List (String × String)) : Node :=
  .elem "style" [("type", "text/css")] false
    [.text ("\n/* Generated by AI CSS Framework */\n" ++
      String.join (stylesheetEntries styles classes))]

/-- The last `style` child of the head (`head.find_all('style')[-1]`,
html_processor.py 395-397). -/
def lastStyleChild : List Node → Option Node
  | [] => none
  | c :: cs =>
    match lastStyleChild cs with
    | some r => some r
    | none =>
      match c with
      | .elem "style" a ce gs => some (.elem "style" a ce gs)
      | _ => none

/-- Append a text fragment into the last `style` child
(`existing_styles[-1].append(style_content)`, html_processor.py 398-400). -/
def appendIntoLastStyle (cs : List Node) (frag : String) : List Node :=
  match cs with
  | [] => []
  | c :: rest =>
    if (rest.any fun d => match d with | .elem "style" _ _ _ => true | _ => false) then
      c :: appendIntoLastStyle rest frag
    else
      match c with
      | .elem "style" a ce gs => .elem "style" a ce (gs ++ [.text frag]) :: rest
      | _ => c :: appendIntoLastStyle rest frag

/-- Place the generated CSS into the head (html_processor.py 391-407): into
the last existing `style` child when it is `type="text/css"`, else as a new
style node appended to the head. -/
def appendStylesToHeadChildren (styles classes : List (String × String))
    (headChildren : List Node) : List Node :=
  match lastStyleChild headChildren with
  | some (.elem _ a _ _) =>
    if lookupAttr "type" a = some "text/css" then
      appendIntoLastStyle headChildren
        ("\n/* Generated by AI CSS Framework */\n" ++
          String.join (stylesheetEntries styles classes))
    else headChildren ++ [generatedStyleTag styles classes]
  | _ => headChildren ++ [generatedStyleTag styles classes]

end AICSS

namespace AICSS

mutual

/-- Update the first `head` element in document order with a child-list
transformation. -/
def updateHeadNode (f : List Node → List Node) : Node → (Node × Bool)
  | .text s => (.text s, false)
  | .elem n a ce cs =>
    if n = "head" then (.elem n a ce (f cs), true)
    else
      let (cs', fl) := updateHeadList f cs
      (.elem n a ce cs', fl)

def updateHeadList (f : List Node → List Node) :
    List Node → (List Node × Bool)
  | [] => ([], false)
  | c :: cs =>
    let (c', fl) := updateHeadNode f c
    if fl then (c' :: cs, true)
    else
      let (cs', fl') := updateHeadList f cs
      (c :: cs', fl')

end

mutual

/-- `soup.html.insert(0, head)`: prepend a child to the first `html`
element (html_processor.py 404-407). -/
def prependToHtmlNode (child : Node) : Node → (Node × Bool)
  | .text s => (.text s, false)
  | .elem n a ce cs =>
    if n = "html" then (.elem n a ce (child :: cs), true)
    else
      let (cs', fl) := prependToHtmlList child cs
      (.elem n a ce cs', fl)

def prependToHtmlList (child : Node) : List Node → (List Node × Bool)
  | [] => ([], false)
  | c :: cs =>
    let (c', fl) := prependToHtmlNode child c
    if fl then (c' :: cs, true)
    else
      let (cs', fl') := prependToHtmlList child cs
      (c :: cs', fl')

end

/-- The stylesheet assembly (html_processor.py 377-407).  With no styles the
document is untouched; with styles but neither a `head` nor an `html`
element, the source dereferences `soup.html` as `None` and the resulting
exception is caught by the top-level handler. -/
def assembleStylesheet (styles classes : List (String × String))
    (doc : Node) : Except Unit Node :=
  if styles.isEmpty then .ok doc
  else
    let (doc', found) :=
      updateHeadNode (appendStylesToHeadChildren styles classes) doc
    if found then .ok doc'
    else
      let newHead : Node :=
        .elem "head" [] false [generatedStyleTag styles classes]
      let (doc'', foundHtml) := prependToHtmlNode newHead doc
      if foundHtml then .ok doc'' else .error ()

mutual

/-- First final sweep (html_processor.py 409-411): delete every remaining
style-description attribute. -/
def removeAicssAttrs : Node → Node
  | .text s => .text s
  | .elem n a ce cs =>
    let a' := if (lookupAttr "aicss" a).isSome then eraseAttr "aicss" a else a
    .elem n a' ce (removeAicssAttrsList cs)

def removeAicssAttrsList : List Node → List Node
  | [] => []
  | c :: cs => removeAicssAttrs c :: removeAicssAttrsList cs

end

mutual

/-- Second final sweep (html_processor.py 413-417): delete every id
attribute carrying the synthetic `aicss-` prefix. -/
def removeAutoIds : Node → Node
  | .text s => .text s
  | .elem n a ce cs =>
    let a' :=
      match lookupAttr "id" a with
      | some i => if strStartsWith i "aicss-" then eraseAttr "id" a else a
      | none => a
    .elem n a' ce (removeAutoIdsList cs)

def removeAutoIdsList : List Node → List Node
  | [] => []
  | c :: cs => removeAutoIds c :: removeAutoIdsList cs

end

/-- The style-processing stage of `process_html_file` (html_processor.py
287-438): description rows from a parsed copy, the first generation pass,
the main aicss loop, stylesheet assembly, final attribute cleanup, and
serialization.  Mirrors the source's `try`-body; the handler is
`processHtmlFileStyles`. -/
def processHtmlFileStylesBody
    (resolverE : String → Except Unit (List (String × String)))
    (doc : Node) : Except Unit (String × List (String × String)) :=
  let rows := extractStyleDescriptions doc
  match phase1 resolverE doc rows with
  | .error e => .error e
  | .ok (styles1, classes1) =>
    let (doc2, st) := loop328 resolverE doc
      ⟨none, styles1, classes1, 0⟩
    match st.err with
    | some e => .error e
    | none =>
      match assembleStylesheet st.styles st.classes doc2 with
      | .error e => .error e
      | .ok doc3 =>
        let doc4 := removeAutoIds (removeAicssAttrs doc3)
        .ok (render doc4, st.styles)

/-- The top-level `try`/`except` of `process_html_file` (lines 220, 434-438):
any exception yields `("", {})`. -/
def processHtmlFileStyles
    (resolverE : String → Except Unit (List (String × String)))
    (doc : Node) : String × List (String × String) :=
  match processHtmlFileStylesBody resolverE doc with
  | .ok r => r
  | .error _ => ("", [])

end AICSS

namespace AICSS

/-! ## Sanitization pass (`process_ai_tags`, html_processor.py 1127-1287)

The html5lib-based terminal repair block, step by step in source order.
Each `find_all(string=...)` loop is a map over the document's text nodes;
each attribute fix is a map over element attributes. -/

mutual

/-- Map a transformation over every text node. -/
def mapTextNode (f : String → String) : Node → Node
  | .text s => .text (f s)
  | .elem n a ce cs => .elem n a ce (mapTextList f cs)

def mapTextList (f : String → String) : List Node → List Node
  | [] => []
  | c :: cs => mapTextNode f c :: mapTextList f cs

end

mutual

/-- Map a transformation over every element's attribute list. -/
def mapAttrsNode (f : List (String × String) → List (String × String)) :
    Node → Node
  | .text s => .text s
  | .elem n a ce cs => .elem n (f a) ce (mapAttrsList f cs)

def mapAttrsList (f : List (String × String) → List (String × String)) :
    List Node → List Node
  | [] => []
  | c :: cs => mapAttrsNode f c :: mapAttrsList f cs

end

/-- `q([^q]*)q` with a possibly empty value. -/
def matchQuotedStar (q : Char) : List Char → Option (List Char × List Char)
  | c :: cs => if c = q then takeUntilChar q cs else none
  | [] => none

/-- Step 1 (1133-1134): drop class values containing `&lt;` when the joined
class list contains `&lt;/div`. -/
def s1ClassEntityFix (a : List (String × String)) : List (String × String) :=
  match lookupAttr "class" a with
  | some cv =>
    if containsSub "&lt;/div" cv then
      setAttr "class"
        (String.intercalate " "
          ((splitWs cv).filter (fun c => !containsSub "&lt;" c))) a
    else a
  | none => a

/-- `with style "([^"]+)"` (1142) and its single-quote form (1155). -/
def matchWithStyleText (q : Char) (cs : List Char) :
    Option (List Char × List Char) :=
  match matchLit ("with style ".data) cs with
  | none => none
  | some r => matchQuotedPlus q r

/-- `\s*with style "([^"]+)"` (1148/1159): optional leading whitespace. -/
def matchWsWithStyleText (q : Char) (cs : List Char) :
    Option (List Char × List Char) :=
  matchWithStyleText q (cs.dropWhile isSpaceChar)

mutual

/-- Steps 2 and 3 (1137-1160): a text child containing `" with style "`
moves the quoted style onto the parent's style-description attribute and is
cleansed of the directive. -/
def s23Node (q : Char) (marker : String) : Node → Node
  | .text s => .text s
  | .elem n a ce cs =>
    let (a', cs') := s23Kids q marker a cs
    .elem n a' ce cs'

def s23Kids (q : Char) (marker : String) (a : List (String × String)) :
    List Node → (List (String × String) × List Node)
  | [] => (a, [])
  | .text s :: rest =>
    let (a1, s') :=
      if containsSub marker s then
        match searchM (matchWithStyleText q) s.data with
        | some (v, _) =>
          (setAttr "aicss" (⟨v⟩ : String) a,
            ⟨subAllF (fun cs => (matchWsWithStyleText q cs).map
                (fun p => ([], p.2)))
              (fun _ => []) s.data⟩)
        | none => (a, s)
      else (a, s)
    let (a2, rest') := s23Kids q marker a1 rest
    (a2, .text s' :: rest')
  | c :: rest =>
    let c' := s23Node q marker c
    let (a2, rest') := s23Kids q marker a rest
    (a2, c' :: rest')

end

/-- `content "([^"]*)"` with a literal single space (1167/1177). -/
def matchContentSpaceQ (q : Char) (cs : List Char) :
    Option (List Char × List Char) :=
  match matchLit ("content ".data) cs with
  | none => none
  | some r => matchQuotedStar q r

/-- Steps 4 and 4b (1163-1181): unwrap `content "..."` fragments at the
start of a text node. -/
def s4ContentStart (q : Char) (pre : String) (s : String) : String :=
  if strStartsWith (pyStrip s) pre then
    match searchM (matchContentSpaceQ q) s.data with
    | some _ =>
      ⟨subAllF (matchContentSpaceQ q) (fun v => v) s.data⟩
    | none => s
  else s

/-- The empty-check of step 5 (1189-1209): no stripped text anywhere, and
no direct child that is a tag with text or a non-whitespace string. -/
def isEmptyElemChildren (cs : List Node) : Bool :=
  if hasNonWsTextList cs then false
  else
    !(cs.any fun c =>
      match c with
      | .text s => !(stripChars s.data).isEmpty
      | .elem _ _ _ gs => hasNonWsTextList gs)

/-- The tags step 5 collects (1186). -/
def emptyFixTags : List String :=
  ["div", "a", "p", "h1", "h2", "h3", "h4", "h5", "h6", "span", "button",
   "li", "td", "th", "textarea"]

/-- The placeholder text injected by step 5 (1220-1230). -/
def placeholderFor (tagName : String) : String :=
  if tagName = "a" then "Link"
  else if tagName = "button" then "Button"
  else if strStartsWith tagName "h" then
    "Heading " ++ ⟨(tagName.data.drop 1).take 1⟩
  else if tagName = "textarea" then "Enter your message here"
  else "Content placeholder"

mutual

/-- Step 5 (1183-1230): genuinely empty elements of the listed tags are
cleared and given tag-appropriate placeholder text. -/
def s5EmptyFix : Node → Node
  | .text s => .text s
  | .elem n a ce cs =>
    if n ∈ emptyFixTags && isEmptyElemChildren cs then
      .elem n a ce [.text (placeholderFor n)]
    else .elem n a ce (s5EmptyFixList cs)

def s5EmptyFixList : List Node → List Node
  | [] => []
  | c :: cs => s5EmptyFix c :: s5EmptyFixList cs

end

/-- `&lt;/?[a-z0-9]+[^&]*&gt;?` (1237 and elsewhere). -/
def matchEntityTag (cs : List Char) : Option (List Char × List Char) :=
  match matchLit ("&lt;".data) cs with
  | none => none
  | some r =>
    let core := fun (r2 : List Char) =>
      let run := r2.takeWhile (fun c => c.isLower || c.isDigit)
      if run.isEmpty then none
      else
        let r3 := r2.drop run.length
        let mid := r3.takeWhile (fun c => c ≠ '&')
        let r4 := r3.drop mid.length
        match matchLit ("&gt;".data) r4 with
        | some r5 => some (([] : List Char), r5)
        | none => some (([] : List Char), r4)
    match r with
    | '/' :: r2 =>
      (match core r2 with
       | some x => some x
       | none => core r)
    | _ => core r

/-- `&[a-z]+;` (1238). -/
def matchEntityRef (cs : List Char) : Option (List Char × List Char) :=
  match cs with
  | '&' :: r =>
    let run := r.takeWhile Char.isLower
    if run.isEmpty then none
    else
      match r.drop run.length with
      | ';' :: r2 => some ([], r2)
      | _ => none
  | _ => none

/-- `content\s+'([^']*)'\s*` (1241/1268): trailing whitespace consumed. -/
def matchContentSqWs (cs : List Char) : Option (List Char × List Char) :=
  match matchLit ("content".data) cs with
  | none => none
  | some r1 =>
    match matchWs1 r1 with
    | none => none
    | some r2 =>
      match matchQuotedStar '\'' r2 with
      | some (v, rest) => some (v, rest.dropWhile isSpaceChar)
      | none => none

/-- `content\s+"([^"]*)"` (1242/1269). -/
def matchContentDqStar (cs : List Char) : Option (List Char × List Char) :=
  match matchLit ("content".data) cs with
  | none => none
  | some r1 =>
    match matchWs1 r1 with
    | none => none
    | some r2 => matchQuotedStar '"' r2

/-- `content\s+` (1243/1270). -/
def matchContentWs (cs : List Char) : Option (List Char × List Char) :=
  match matchLit ("content".data) cs with
  | none => none
  | some r1 => (matchWs1 r1).map (fun r => ([], r))

/-- `\s+with\s+style\s+q[^q]*q` (1246-1247/1272-1273). -/
def matchWsWithStyleStar (q : Char) (cs : List Char) :
    Option (List Char × List Char) :=
  match matchWs1 cs with
  | none => none
  | some r1 =>
    match matchLit ("with".data) r1 with
    | none => none
    | some r2 =>
      match matchWs1 r2 with
      | none => none
      | some r3 =>
        match matchLit ("style".data) r3 with
        | none => none
        | some r4 =>
          match matchWs1 r4 with
          | none => none
          | some r5 => (matchQuotedStar q r5).map (fun p => ([], p.2))

/-- `\s+style\s+q[^q]*q` (1248-1249). -/
def matchWsStyleStar (q : Char) (cs : List Char) :
    Option (List Char × List Char) :=
  match matchWs1 cs with
  | none => none
  | some r1 =>
    match matchLit ("style".data) r1 with
    | none => none
    | some r2 =>
      match matchWs1 r2 with
      | none => none
      | some r3 => (matchQuotedStar q r3).map (fun p => ([], p.2))

/-- `^\s*['"]` removal (1252): only at the start of the string. -/
def stripLeadingWsQuote (cs : List Char) : List Char :=
  let r := cs.dropWhile isSpaceChar
  match r with
  | c :: rest => if c = '"' || c = '\'' then rest else cs
  | [] => cs

/-- `['"]$` removal (1253): a final quote, possibly before a trailing
newline. -/
def stripTrailingQuote (cs : List Char) : List Char :=
  match cs.reverse with
  | c :: rest =>
    if c = '"' || c = '\'' then rest.reverse
    else if c = '\n' then
      match rest with
      | d :: rest2 =>
        if d = '"' || d = '\'' then ('\n' :: rest2).reverse else cs
      | [] => cs
    else cs
  | [] => cs

/-- Step 6 (1233-1258): the aggressive entity / leaked-directive cleanup of
text nodes containing encoded angle brackets. -/
def s6EntityText (s : String) : String :=
  if containsSub "&lt;/" s || containsSub "&lt;" s || containsSub "&gt;" s
      then
    let r := s.data
    let r := subAllF matchEntityTag (fun _ => [' ']) r
    let r := subAllF matchEntityRef (fun _ => [' ']) r
    let r := subAllF matchContentSqWs (fun v => v) r
    let r := subAllF matchContentDqStar (fun v => v) r
    let r := subAllF matchContentWs (fun _ => []) r
    let r := subAllF (matchWsWithStyleStar '\'') (fun _ => []) r
    let r := subAllF (matchWsWithStyleStar '"') (fun _ => []) r
    let r := subAllF (matchWsStyleStar '\'') (fun _ => []) r
    let r := subAllF (matchWsStyleStar '"') (fun _ => []) r
    let r := stripLeadingWsQuote r
    let r := stripTrailingQuote r
    let r := (strReplaceAll "\\\x22" "\x22" ⟨r⟩).data
    let r := (strReplaceAll "\\\x27" "\x27" ⟨r⟩).data
    ⟨r⟩
  else s

/-- Step 7, `clean_html_entities_in_attributes` (821-884), on the
single-string attribute model: attributes whose value carries an encoded
angle bracket are removed, except `class`, which is cleaned and kept when
anything survives. -/
def s7AttrEntities (a : List (String × String)) : List (String × String) :=
  a.foldr
    (fun p acc =>
      if containsSub "&lt;" p.2 || containsSub "&gt;" p.2 then
        if p.1 = "class" then
          let cleaned := subAllF matchEntityTag (fun _ => []) p.2.data
          let cleaned := cleaned.filter (fun c => c ≠ '<' && c ≠ '>')
          let cleaned := cleaned.filter (fun c => c ≠ '"' && c ≠ '\'')
          if (stripChars cleaned).isEmpty then acc
          else (p.1, (⟨cleaned⟩ : String)) :: acc
        else acc
      else p :: acc)
    []

/-- Step 8 (1264-1274): leaked `content` directives in any text node. -/
def s8ContentText (s : String) : String :=
  if containsSub "content " s then
    let r := s.data
    let r := subAllF matchContentSqWs (fun v => v) r
    let r := subAllF matchContentDqStar (fun v => v) r
    let r := subAllF matchContentWs (fun _ => []) r
    let r := subAllF (matchWsWithStyleStar '\'') (fun _ => []) r
    let r := subAllF (matchWsWithStyleStar '"') (fun _ => []) r
    ⟨r⟩
  else s

/-- `"\s*([^"]*)\s*"` (1281/1282): the group keeps trailing whitespace; the
leading run is consumed by `\s*`. -/
def matchQuotePair (q : Char) (cs : List Char) :
    Option (List Char × List Char) :=
  match cs with
  | c :: rest =>
    if c = q then
      match takeUntilChar q rest with
      | some (seg, after) => some (seg.dropWhile isSpaceChar, after)
      | none => none
    else none
  | [] => none

/-- Step 9 (1277-1284): unwrap quoted sections in text nodes. -/
def s9QuoteText (s : String) : String :=
  if containsSub "\x22" s || containsSub "\x27" s then
    let r := subAllF (matchQuotePair '"') (fun v => v) s.data
    let r := subAllF (matchQuotePair '\'') (fun v => v) r
    ⟨r⟩
  else s

/-- The sanitization pass (html_processor.py 1127-1287): the nine repair
steps in source order. -/
def sanitize (doc : Node) : Node :=
  let d := mapAttrsNode s1ClassEntityFix doc
  let d := s23Node '"' "\x22 with style \x22" d
  let d := s23Node '\'' "\x27 with style \x27" d
  let d := mapTextNode (s4ContentStart '"' "content \x22") d
  let d := mapTextNode (s4ContentStart '\'' "content \x27") d
  let d := s5EmptyFix d
  let d := mapTextNode s6EntityText d
  let d := mapAttrsNode s7AttrEntities d
  let d := mapTextNode s8ContentText d
  let d := mapTextNode s9QuoteText d
  d

end AICSS

namespace AICSS

/-! ## Support lemmas -/

theorem matchLit_append (p rest : List Char) :
    matchLit p (p ++ rest) = some rest := by
  induction p with
  | nil => rfl
  | cons c cs ih => simp [matchLit, ih]

theorem isPrefixOf_append (a b : List Char) : a.isPrefixOf (a ++ b) = true := by
  induction a with
  | nil => simp [List.isPrefixOf]
  | cons c cs ih => simp [List.isPrefixOf, ih]

theorem isBlank_pyStrip (v : String) (h : isBlank v = true) : pyStrip v = "" := by
  have hall : ∀ x ∈ v.data, isSpaceChar x := by
    simpa [isBlank, List.all_eq_true] using h
  have h1 : v.data.dropWhile isSpaceChar = [] :=
    List.dropWhile_eq_nil_iff.mpr hall
  simp [pyStrip, stripChars, h1]

theorem lookupA_append_some {k : String} {l l' : List (String × String)}
    {v : String} (h : lookupA k l = some v) :
    lookupA k (l ++ l') = some v := by
  induction l with
  | nil => simp [lookupA] at h
  | cons p rest ih =>
    by_cases hk : p.1 = k
    · simpa [lookupA, hk] using h
    · simp [lookupA, hk] at h ⊢
      exact ih h

theorem lookupA_append_none {k : String} {l : List (String × String)}
    (l' : List (String × String)) (h : lookupA k l = none) :
    lookupA k (l ++ l') = lookupA k l' := by
  induction l with
  | nil => rfl
  | cons p rest ih =>
    by_cases hk : p.1 = k
    · simp [lookupA, hk] at h
    · simp [lookupA, hk] at h ⊢
      exact ih h

theorem lookupA_optEntry_ne {k k' : String} (h : k ≠ k')
    (o : Option (List Char × List Char)) (rest : List (String × String)) :
    lookupA k (optEntry k' o ++ rest) = lookupA k rest := by
  have h' : ¬ k' = k := fun hh => h hh.symm
  cases o with
  | none => rfl
  | some p => simp [optEntry, lookupA, h']

theorem lookupA_cons_self (k v : String) (rest : List (String × String)) :
    lookupA k ((k, v) :: rest) = some v := by
  simp [lookupA]

theorem lookupA_setAttr_self (k v : String) (l : List (String × String)) :
    lookupA k (setAttr k v l) = some v := by
  induction l with
  | nil => simp [setAttr, lookupA]
  | cons p rest ih =>
    by_cases hk : p.1 = k
    · simp [setAttr, hk, lookupA]
    · simp [setAttr, hk, lookupA, ih]

theorem lookupA_setAttr_ne {j k : String} (h : j ≠ k) (v : String)
    (l : List (String × String)) :
    lookupA j (setAttr k v l) = lookupA j l := by
  have h' : ¬ k = j := fun hh => h hh.symm
  induction l with
  | nil => simp [setAttr, lookupA, h']
  | cons p rest ih =>
    by_cases hk : p.1 = k
    · have h2 : ¬ p.1 = j := by rw [hk]; exact h'
      simp [setAttr, hk, lookupA, h', h2]
    · simp [setAttr, hk, lookupA, ih]

theorem lookupA_eraseAttr_ne {j k : String} (h : j ≠ k)
    (l : List (String × String)) :
    lookupA j (eraseAttr k l) = lookupA j l := by
  have h' : ¬ k = j := fun hh => h hh.symm
  induction l with
  | nil => rfl
  | cons p rest ih =>
    by_cases hk : p.1 = k
    · have h2 : ¬ p.1 = j := by rw [hk]; exact h'
      simp [eraseAttr, hk, lookupA, h2, h']
    · simp [eraseAttr, hk, lookupA, ih]

theorem lookupA_eq_none_of_not_mem {k : String}
    {l : List (String × String)} (h : k ∉ l.map Prod.fst) :
    lookupA k l = none := by
  induction l with
  | nil => rfl
  | cons p rest ih =>
    simp at h
    have h1 : ¬ p.1 = k := fun hh => h.1 hh.symm
    simp [lookupA, h1]
    exact ih (by simpa using h.2)

theorem lookupA_eraseAttr_self {k : String} {l : List (String × String)}
    (h : (l.map Prod.fst).Nodup) : lookupA k (eraseAttr k l) = none := by
  induction l with
  | nil => rfl
  | cons p rest ih =>
    simp at h
    by_cases hk : p.1 = k
    · simp [eraseAttr, hk]
      refine lookupA_eq_none_of_not_mem ?_
      rw [← hk]
      simpa using h.1
    · simp [eraseAttr, hk, lookupA]
      exact ih h.2

end AICSS

namespace AICSS

/-! ## Claim C9: self-closing custom tags -/

/-- The name, attribute list and children of a node (`text` nodes have no
attributes or children). -/
def nodeName : Node → String
  | .elem n _ _ _ => n
  | .text _ => ""

def nodeAttrs : Node → List (String × String)
  | .elem _ a _ _ => a
  | .text _ => []

def nodeChildren : Node → List Node
  | .elem _ _ _ cs => cs
  | .text _ => []

/-- The attribute-copy loop of the self-closing replacement
(html_processor.py 1062-1064), named for the lemmas below;
`selfClosingAiReplacement a` is definitionally
`div` with `copyAttrsExceptStyle a [("class", "ai-generated")]`. -/
def copyAttrsExceptStyle (l base : List (String × String)) :
    List (String × String) :=
  l.foldl (fun acc p => if p.1 = "style" then acc else setAttr p.1 p.2 acc)
    base

theorem copy_notmem : ∀ (l base : List (String × String)) (k : String),
    k ∉ l.map Prod.fst →
    lookupA k (copyAttrsExceptStyle l base) = lookupA k base := by
  intro l
  induction l with
  | nil => intro base k _; rfl
  | cons p rest ih =>
    intro base k hk
    simp only [List.map_cons, List.mem_cons] at hk
    push_neg at hk
    by_cases hs : p.1 = "style"
    · simpa [copyAttrsExceptStyle, List.foldl_cons, hs] using
        ih base k hk.2
    · have t2 : lookupA k (setAttr p.1 p.2 base) = lookupA k base :=
        lookupA_setAttr_ne hk.1 p.2 base
      simpa [copyAttrsExceptStyle, List.foldl_cons, hs, t2] using
        ih (setAttr p.1 p.2 base) k hk.2

theorem copy_style : ∀ (l base : List (String × String)),
    lookupA "style" (copyAttrsExceptStyle l base) = lookupA "style" base := by
  intro l
  induction l with
  | nil => intro base; rfl
  | cons p rest ih =>
    intro base
    by_cases hs : p.1 = "style"
    · simpa [copyAttrsExceptStyle, List.foldl_cons, hs] using ih base
    · have t2 : lookupA "style" (setAttr p.1 p.2 base) =
          lookupA "style" base :=
        lookupA_setAttr_ne (fun hh => hs hh.symm) p.2 base
      simpa [copyAttrsExceptStyle, List.foldl_cons, hs, t2] using
        ih (setAttr p.1 p.2 base)

theorem copy_mem : ∀ (l base : List (String × String)) (k v : String),
    (l.map Prod.fst).Nodup → (k, v) ∈ l → k ≠ "style" →
    lookupA k (copyAttrsExceptStyle l base) = some v := by
  intro l
  induction l with
  | nil => intro base k v _ hm; simp at hm
  | cons p rest ih =>
    intro base k v hnd hm hks
    have hnd2 : (rest.map Prod.fst).Nodup := by
      simpa using hnd.of_cons
    rcases List.mem_cons.mp hm with hm1 | hm2
    · have hp1 : p.1 = k := by rw [← hm1]
      have hp2 : p.2 = v := by rw [← hm1]
      have hknotin : k ∉ rest.map Prod.fst := by
        rw [← hp1]
        simpa [List.nodup_cons] using hnd.not_mem
      by_cases hs : p.1 = "style"
      · exact absurd (hp1 ▸ hs) hks
      · have t1 := copy_notmem rest (setAttr p.1 p.2 base) k hknotin
        have t2 : lookupA k (setAttr p.1 p.2 base) = some v := by
          rw [hp1, hp2] at *
          exact lookupA_setAttr_self k v base
        simpa [copyAttrsExceptStyle, List.foldl_cons, hs, t2] using t1
    · by_cases hs : p.1 = "style"
      · simpa [copyAttrsExceptStyle, List.foldl_cons, hs] using
          ih base k v hnd2 hm2 hks
      · simpa [copyAttrsExceptStyle, List.foldl_cons, hs] using
          ih (setAttr p.1 p.2 base) k v hnd2 hm2 hks

theorem lookupA_some_mem {k v : String} {l : List (String × String)}
    (h : lookupA k l = some v) : (k, v) ∈ l := by
  induction l with
  | nil => simp [lookupA] at h
  | cons p rest ih =>
    by_cases hk : p.1 = k
    · simp [lookupA, hk] at h
      rw [← hk, ← h]
      exact List.mem_cons_self _ _
    · simp [lookupA, hk] at h
      exact List.mem_cons_of_mem _ (ih h)

theorem lookupA_none_notmem {k : String} {l : List (String × String)}
    (h : lookupA k l = none) : k ∉ l.map Prod.fst := by
  induction l with
  | nil => simp
  | cons p rest ih =>
    by_cases hk : p.1 = k
    · simp [lookupA, hk] at h
    · simp [lookupA, hk] at h
      simp only [List.map_cons, List.mem_cons]
      push_neg
      exact ⟨fun hh => hk hh.symm, ih h⟩

end AICSS

/-- C9, counterexample: the claim says the replacement of a self-closing
custom tag carries the fixed marker class *and* all of the original
element's attributes except `style`.  For `<aip class="x"/>` the
attribute-copy loop of html_processor.py 1062-1064 overwrites the marker
class: the replacement is `<div class="x"></div>`, which does not carry
`ai-generated` anywhere. -/
theorem C9_counterexample :
    AICSS.selfClosingSweep (.elem "aip" [("class", "x")] true []) =
      (.elem "div" [("class", "x")] false [], true) ∧
    AICSS.lookupAttr "class"
      (AICSS.nodeAttrs (AICSS.selfClosingAiReplacement [("class", "x")])) =
      some "x" ∧
    ("x" : String) ≠ "ai-generated" :=
  ⟨rfl, rfl, by decide⟩

/-- C9, amended: the replacement is an empty standard `div` with no
dangling tag; every original attribute except `style` is carried over; it
carries the fixed marker class `ai-generated` exactly when the original had
no `class` attribute — an original `class` attribute replaces the marker
instead of being merged with it — and no `style` attribute survives. -/
theorem C9_amended (a : List (String × String))
    (hnodup : (a.map Prod.fst).Nodup) :
    AICSS.nodeName (AICSS.selfClosingAiReplacement a) = "div" ∧
    AICSS.nodeChildren (AICSS.selfClosingAiReplacement a) = [] ∧
    (∀ k v, k ≠ "style" → AICSS.lookupA k a = some v →
      AICSS.lookupA k (AICSS.nodeAttrs (AICSS.selfClosingAiReplacement a)) =
        some v) ∧
    (AICSS.lookupA "class" a = none →
      AICSS.lookupA "class"
        (AICSS.nodeAttrs (AICSS.selfClosingAiReplacement a)) =
        some "ai-generated") ∧
    AICSS.lookupA "style"
      (AICSS.nodeAttrs (AICSS.selfClosingAiReplacement a)) = none := by
  have hrepl : AICSS.nodeAttrs (AICSS.selfClosingAiReplacement a) =
      AICSS.copyAttrsExceptStyle a [("class", "ai-generated")] := rfl
  refine ⟨rfl, rfl, ?_, ?_, ?_⟩
  · intro k v hks hkv
    rw [hrepl]
    exact AICSS.copy_mem a [("class", "ai-generated")] k v hnodup
      (AICSS.lookupA_some_mem hkv) hks
  · intro hnone
    rw [hrepl,
      AICSS.copy_notmem a [("class", "ai-generated")] "class"
        (AICSS.lookupA_none_notmem hnone)]
    rfl
  · rw [hrepl, AICSS.copy_style a [("class", "ai-generated")]]
    rfl

/-- C9, witness for the amended theorem at a concrete attribute list. -/
theorem C9_amended_witness :
    AICSS.nodeName (AICSS.selfClosingAiReplacement [("id", "k")]) = "div" ∧
    AICSS.lookupA "class"
      (AICSS.nodeAttrs (AICSS.selfClosingAiReplacement [("id", "k")])) =
      some "ai-generated" ∧
    AICSS.lookupA "id"
      (AICSS.nodeAttrs (AICSS.selfClosingAiReplacement [("id", "k")])) =
      some "k" := by
  have h := C9_amended [("id", "k")] (by decide)
  exact ⟨h.1, h.2.2.2.1 (by decide), h.2.2.1 "id" "k" (by decide) (by decide)⟩


namespace AICSS

/-! ## Claim C8: semantic class-name derivation -/

/-- Whether the description matches any tone, size or shape keyword of
`_generate_semantic_class_name` (html_processor.py 110-134). -/
def hasStyleKeyword (description : String) : Bool :=
  let low := pyLower description
  containsSub "primary" low || containsSub "secondary" low ||
  containsSub "success" low || containsSub "danger" low ||
  containsSub "error" low || containsSub "warning" low ||
  containsSub "info" low || containsSub "large" low ||
  containsSub "small" low || containsSub "rounded" low ||
  containsSub "outline" low

theorem strData_append (x y : String) : (x ++ y).data = x.data ++ y.data := by
  cases x; cases y; rfl

/-- With no keyword match, the derived name is the lowercased tag plus the
first four hex digits of the id's MD5 (html_processor.py 136-140). -/
theorem semanticClassName_noKeyword (i tag desc : String)
    (hk : hasStyleKeyword desc = false) :
    semanticClassName i tag desc =
      pyLower tag ++ "-" ++ md5HexPrefix 4 i := by
  simp only [hasStyleKeyword, Bool.or_eq_false_iff] at hk
  obtain ⟨⟨⟨⟨⟨⟨⟨⟨⟨⟨h1, h2⟩, h3⟩, h4⟩, h5⟩, h6⟩, h7⟩, h8⟩, h9⟩, h10⟩, h11⟩
    := hk
  simp [semanticClassName, h1, h2, h3, h4, h5, h6, h7, h8, h9, h10, h11]

end AICSS

set_option maxRecDepth 4000 in
/-- C8, counterexample: the claim says different element ids (same tag and
description, no keyword matches) yield different class names.  The fallback
suffix is only the first four hex digits of the id's MD5
(html_processor.py 139), and `md5("id261")` and `md5("id278")` share the
prefix `2691`, so two distinct ids collide. -/
theorem C8_counterexample :
    AICSS.semanticClassName "id261" "div" "" = "div-2691" ∧
    AICSS.semanticClassName "id278" "div" "" = "div-2691" ∧
    ("id261" : String) ≠ "id278" :=
  ⟨by decide, by decide, by decide⟩

/-- C8, amended: the derivation is a pure function of (id, tag,
description) — identical inputs give identical outputs — and when the
description matches no tone, size or shape keyword, two ids produce
different names exactly in so far as their 4-hex-digit truncated MD5
prefixes differ. -/
theorem C8_amended (id1 id2 tag desc : String)
    (hk : AICSS.hasStyleKeyword desc = false)
    (hh : AICSS.md5HexPrefix 4 id1 ≠ AICSS.md5HexPrefix 4 id2) :
    AICSS.semanticClassName id1 tag desc =
      AICSS.pyLower tag ++ "-" ++ AICSS.md5HexPrefix 4 id1 ∧
    AICSS.semanticClassName id2 tag desc =
      AICSS.pyLower tag ++ "-" ++ AICSS.md5HexPrefix 4 id2 ∧
    AICSS.semanticClassName id1 tag desc ≠
      AICSS.semanticClassName id2 tag desc := by
  refine ⟨AICSS.semanticClassName_noKeyword id1 tag desc hk,
    AICSS.semanticClassName_noKeyword id2 tag desc hk, ?_⟩
  rw [AICSS.semanticClassName_noKeyword id1 tag desc hk,
    AICSS.semanticClassName_noKeyword id2 tag desc hk]
  intro heq
  apply hh
  have hdata := congrArg String.data heq
  simp only [AICSS.strData_append, List.append_assoc] at hdata
  have h2 := List.append_cancel_left hdata
  have h3 := List.append_cancel_left h2
  exact congrArg String.mk h3

set_option maxRecDepth 4000 in
/-- C8, witness: the amended theorem at concrete inputs
(`md5("a")[:4] = "0cc1" ≠ "2691" = md5("id261")[:4]`). -/
theorem C8_amended_witness :
    AICSS.semanticClassName "id261" "div" "plain words" ≠
      AICSS.semanticClassName "a" "div" "plain words" :=
  (C8_amended "id261" "a" "div" "plain words" (by decide) (by decide)).2.2

/-! ## Claim C4: content precedence -/

/-- C4, counterexample: the claim fixes the precedence content > text >
remaining-text > placeholder for every generic custom content tag.  In
`generate_html_from_tag` the `div` branch (html_processor.py 526-536) never
consults the `text` directive: for `<aidiv>text "hello"</aidiv>` the
directives contain `text = "hello"` and no `content`, yet the replacement's
inner content is the placeholder, not `hello`. -/
theorem C4_counterexample :
    AICSS.lookupA "text"
      (AICSS.extractDirectives "text \x22hello\x22") = some "hello" ∧
    AICSS.lookupA "content"
      (AICSS.extractDirectives "text \x22hello\x22") = none ∧
    AICSS.generateHtmlFromTag "aidiv" "text \x22hello\x22" =
      "<div>AI-generated content</div>" :=
  ⟨by decide, by decide, by decide⟩

/-- C4, amended: the stated precedence is the one implemented by the final
regex fallback `replace_ai_tag` (html_processor.py 1090-1112): with no
`content` directive, an explicit `text` directive is used verbatim, and
with neither, the remaining text is used, or the literal placeholder when
it is blank.  (`generate_html_from_tag` instead resolves `div`/unknown tags
as content > remaining-text > placeholder and ignores `text`.) -/
theorem C4_amended (tc : String) :
    (∀ t, AICSS.lookupA "content" (AICSS.extractDirectives tc) = none →
      AICSS.lookupA "text" (AICSS.extractDirectives tc) = some t →
      AICSS.replaceAiTagContent tc = t) ∧
    (AICSS.lookupA "content" (AICSS.extractDirectives tc) = none →
      AICSS.lookupA "text" (AICSS.extractDirectives tc) = none →
      AICSS.replaceAiTagContent tc =
        (if AICSS.isBlank (AICSS.getRemainingText tc
            (AICSS.extractDirectives tc)) then "AI-generated content"
         else AICSS.getRemainingText tc (AICSS.extractDirectives tc))) := by
  constructor
  · intro t hc ht
    simp only [AICSS.replaceAiTagContent, hc, ht]
  · intro hc ht
    simp only [AICSS.replaceAiTagContent, hc, ht]

/-- C4, witness for the amended theorem: an explicit `text` directive is
taken as the content by the fallback pass. -/
theorem C4_amended_witness :
    AICSS.replaceAiTagContent "text \x22hi\x22" = "hi" :=
  (C4_amended "text \x22hi\x22").1 "hi" (by decide) (by decide)

/-! ## Claim C6: sanitization idempotence -/

/-- C6, counterexample: sanitization is not idempotent.  On `<p>""</p>` the
first application leaves the element's text emptied by the nested-quote
remover (html_processor.py 1277-1284, which runs after the empty-element
check), and only the second application's empty-element step
(1183-1230) injects placeholder text, so
`sanitize (sanitize d) ≠ sanitize d`. -/
theorem C6_counterexample :
    AICSS.sanitize (.elem "p" [] false [.text "\x22\x22"]) =
      .elem "p" [] false [.text ""] ∧
    AICSS.sanitize (AICSS.sanitize (.elem "p" [] false [.text "\x22\x22"])) =
      .elem "p" [] false [.text "Content placeholder"] ∧
    AICSS.sanitize (AICSS.sanitize (.elem "p" [] false [.text "\x22\x22"])) ≠
      AICSS.sanitize (.elem "p" [] false [.text "\x22\x22"]) := by
  refine ⟨rfl, rfl, ?_⟩
  intro heq
  rw [show AICSS.sanitize (AICSS.sanitize
      (.elem "p" [] false [.text "\x22\x22"])) =
      .elem "p" [] false [.text "Content placeholder"] from rfl,
    show AICSS.sanitize (.elem "p" [] false [.text "\x22\x22"]) =
      .elem "p" [] false [.text ""] from rfl] at heq
  injection heq with hn ha hce hcs
  injection hcs with hhd htl
  injection hhd with hs
  exact absurd hs (by decide)

namespace AICSS

/-- Structural induction principle for `Node` (and, through `Q`, for child
lists). -/
theorem Node.myInduction {P : Node → Prop} {Q : List Node → Prop}
    (helem : ∀ n a ce cs, Q cs → P (.elem n a ce cs))
    (htext : ∀ s, P (.text s))
    (hnil : Q [])
    (hcons : ∀ c cs, P c → Q cs → Q (c :: cs)) :
    ∀ t, P t :=
  fun t => Node.rec helem htext hnil hcons t

theorem Node.myInductionList {P : Node → Prop} {Q : List Node → Prop}
    (helem : ∀ n a ce cs, Q cs → P (.elem n a ce cs))
    (htext : ∀ s, P (.text s))
    (hnil : Q [])
    (hcons : ∀ c cs, P c → Q cs → Q (c :: cs)) :
    ∀ cs, Q cs := by
  intro cs
  induction cs with
  | nil => exact hnil
  | cons c rest ih =>
    exact hcons c rest (Node.myInduction helem htext hnil hcons c) ih

theorem stripChars_cons_nonWs {c : Char} (cs : List Char)
    (h : isSpaceChar c = false) : (stripChars (c :: cs)).isEmpty = false := by
  have h1 : (c :: cs).dropWhile isSpaceChar = c :: cs := by
    simp [List.dropWhile_cons, h]
  by_contra hne
  simp [List.isEmpty_iff] at hne
  have h2 : ((c :: cs).reverse.dropWhile isSpaceChar) = [] := by
    simpa [stripChars, h1, List.reverse_eq_nil_iff] using hne
  have h3 := List.dropWhile_eq_nil_iff.mp h2 c (by simp)
  rw [h] at h3
  exact Bool.false_ne_true h3

theorem placeholderFor_nonblank (n : String) :
    (stripChars (placeholderFor n).data).isEmpty = false := by
  by_cases h1 : n = "a"
  · rw [h1]; decide
  · by_cases h2 : n = "button"
    · rw [h2]; decide
    · by_cases h3 : strStartsWith n "h"
      · have e : placeholderFor n =
            "Heading " ++ (⟨(n.data.drop 1).take 1⟩ : String) := by
          simp [placeholderFor, h1, h2, h3]
        have e2 : (placeholderFor n).data = 'H' ::
            ("eading " ++ (⟨(n.data.drop 1).take 1⟩ : String)).data := by
          rw [e, show ("Heading " : String) =
            "H" ++ "eading " from rfl, String.append_assoc,
            strData_append "H" _]
          rfl
        rw [e2]
        exact stripChars_cons_nonWs _ (by decide)
      · by_cases h4 : n = "textarea"
        · rw [h4]; decide
        · have e : placeholderFor n = "Content placeholder" := by
            simp [placeholderFor, h1, h2, h3, h4]
          rw [e]; decide

theorem hasNonWsTextList_any (cs : List Node) :
    hasNonWsTextList cs = cs.any hasNonWsText := by
  induction cs with
  | nil => rfl
  | cons c rest ih => simp [hasNonWsTextList, ih]

theorem isEmptyElemChildren_eq (cs : List Node) :
    isEmptyElemChildren cs = !hasNonWsTextList cs := by
  by_cases h : hasNonWsTextList cs = true
  · simp [isEmptyElemChildren, h]
  · simp at h
    have hfun : (fun c => match c with
        | .text s => !(stripChars s.data).isEmpty
        | .elem _ _ _ gs => hasNonWsTextList gs) = hasNonWsText := by
      funext c
      cases c <;> rfl
    simp [isEmptyElemChildren, h, hfun, ← hasNonWsTextList_any cs, h]

theorem s5EmptyFix_preserves_nonWs :
    ∀ t, hasNonWsText t = true → hasNonWsText (s5EmptyFix t) = true := by
  refine Node.myInduction
    (P := fun t => hasNonWsText t = true →
      hasNonWsText (s5EmptyFix t) = true)
    (Q := fun cs => hasNonWsTextList cs = true →
      hasNonWsTextList (s5EmptyFixList cs) = true) ?_ ?_ ?_ ?_
  · intro n a ce cs ih ht
    by_cases hc : (n ∈ emptyFixTags && isEmptyElemChildren cs) = true
    · simp only [s5EmptyFix, hc, if_pos]
      simp [hasNonWsText, hasNonWsTextList,
        placeholderFor_nonblank n]
    · simp only [s5EmptyFix, hc]
      simp only [Bool.not_eq_true] at hc
      simp only [hasNonWsText] at ht ⊢
      rw [if_neg (by simp [hc])]
      simp only [hasNonWsText]
      exact ih ht
  · intro s h
    simpa [s5EmptyFix, hasNonWsText] using h
  · intro h
    simpa [hasNonWsTextList] using h
  · intro c cs hc hcs h
    simp only [hasNonWsTextList, Bool.or_eq_true] at h
    simp only [s5EmptyFixList, hasNonWsTextList, Bool.or_eq_true]
    rcases h with h | h
    · exact Or.inl (hc h)
    · exact Or.inr (hcs h)

theorem s5EmptyFixList_preserves_nonWs (cs : List Node)
    (h : hasNonWsTextList cs = true) :
    hasNonWsTextList (s5EmptyFixList cs) = true := by
  rw [hasNonWsTextList_any] at h ⊢
  induction cs with
  | nil => simp at h
  | cons c rest ih =>
    simp only [List.any_cons, Bool.or_eq_true] at h
    simp only [s5EmptyFixList, List.any_cons, Bool.or_eq_true]
    rcases h with h | h
    · exact Or.inl (s5EmptyFix_preserves_nonWs c h)
    · exact Or.inr (ih h)

/-- C6's amended core: the empty-element placeholder step alone is
idempotent. -/
theorem s5EmptyFix_idem : ∀ t, s5EmptyFix (s5EmptyFix t) = s5EmptyFix t := by
  refine Node.myInduction
    (P := fun t => s5EmptyFix (s5EmptyFix t) = s5EmptyFix t)
    (Q := fun cs => s5EmptyFixList (s5EmptyFixList cs) = s5EmptyFixList cs)
    ?_ ?_ ?_ ?_
  · intro n a ce cs ih
    by_cases hc : (n ∈ emptyFixTags && isEmptyElemChildren cs) = true
    · have hph : isEmptyElemChildren [Node.text (placeholderFor n)] =
          false := by
        rw [isEmptyElemChildren_eq]
        simp [hasNonWsTextList, hasNonWsText, placeholderFor_nonblank n]
      have e1 : s5EmptyFix (Node.elem n a ce cs) =
          Node.elem n a ce [Node.text (placeholderFor n)] := by
        simp only [s5EmptyFix]
        rw [if_pos hc]
      have hc2 : ¬ (n ∈ emptyFixTags &&
          isEmptyElemChildren [Node.text (placeholderFor n)]) = true := by
        simp [hph]
      have e2 : s5EmptyFix (Node.elem n a ce
          [Node.text (placeholderFor n)]) =
          Node.elem n a ce
            (s5EmptyFixList [Node.text (placeholderFor n)]) := by
        simp only [s5EmptyFix]
        rw [if_neg hc2]
      rw [e1, e2]
      rfl
    · have e1 : s5EmptyFix (Node.elem n a ce cs) =
          Node.elem n a ce (s5EmptyFixList cs) := by
        simp only [s5EmptyFix]
        rw [if_neg hc]
      have hc2 : ¬ (n ∈ emptyFixTags &&
          isEmptyElemChildren (s5EmptyFixList cs)) = true := by
        intro habs
        simp only [Bool.and_eq_true] at habs
        have hmem := habs.1
        have hne : isEmptyElemChildren cs = false := by
          cases hcc : isEmptyElemChildren cs with
          | false => rfl
          | true => exact absurd (by simp [hmem, hcc]) hc
        rw [isEmptyElemChildren_eq] at hne
        simp at hne
        have := s5EmptyFixList_preserves_nonWs cs hne
        rw [isEmptyElemChildren_eq, this] at habs
        simpa using habs.2
      have e2 : s5EmptyFix (Node.elem n a ce (s5EmptyFixList cs)) =
          Node.elem n a ce (s5EmptyFixList (s5EmptyFixList cs)) := by
        simp only [s5EmptyFix]
        rw [if_neg hc2]
      rw [e1, e2, ih]
  · intro s
    rfl
  · rfl
  · intro c cs hc hcs
    simp only [s5EmptyFixList]
    rw [hc, hcs]

end AICSS

/-- C6, amended: the full sanitization pass is not idempotent (see the
counterexample: the nested-quote remover can empty an element after the
empty-element check has run, so a second pass injects placeholder text);
the empty-element placeholder step itself is idempotent. -/
theorem C6_amended (t : AICSS.Node) :
    AICSS.s5EmptyFix (AICSS.s5EmptyFix t) = AICSS.s5EmptyFix t :=
  AICSS.s5EmptyFix_idem t

/-! ## Claim C5: fixed-point termination and tag elimination -/

/-- C5, counterexample: a custom element with two element children has no
BeautifulSoup string (`.string` is `None` for more than one child), no
`with` attribute and is not an empty element, so no sweep of
`process_html_recursively` ever rewrites it: expansion alone leaves one
custom tag for any `max_depth`.  Here the document holds `N = 1` nested
custom tag and `max_depth = 5 ≥ N + 1`, yet one remains. -/
theorem C5_counterexample :
    AICSS.processHtmlRecursively (fun s => [.text s])
      (.elem "aidiv" [] false
        [.elem "p" [] false [.text "a"], .elem "p" [] false [.text "b"]])
      5 =
      .elem "aidiv" [] false
        [.elem "p" [] false [.text "a"], .elem "p" [] false [.text "b"]] ∧
    AICSS.countAi
      (.elem "aidiv" [] false
        [.elem "p" [] false [.text "a"], .elem "p" [] false [.text "b"]])
      = 1 ∧
    AICSS.aiDepth
      (.elem "aidiv" [] false
        [.elem "p" [] false [.text "a"], .elem "p" [] false [.text "b"]])
      + 1 ≤ 5 :=
  ⟨rfl, rfl, by decide⟩

namespace AICSS

theorem regexCleanup_countAi :
    ∀ t, countAi (regexCleanup t) = 0 := by
  refine Node.myInduction
    (P := fun t => countAi (regexCleanup t) = 0)
    (Q := fun cs => countAiList (regexCleanupList cs) = 0) ?_ ?_ ?_ ?_
  · intro n a ce cs ih
    by_cases hai : strStartsWith n "ai" = true
    · by_cases hce : (ce && cs.isEmpty) = true
      · simp [regexCleanup, hai, hce, countAi, countAiList]
        decide
      · have e : regexCleanup (Node.elem n a ce cs) =
            Node.elem "div"
              (match lookupA "style"
                  (extractDirectives (renderList (regexCleanupList cs))) with
                | some s => [("aicss", s)]
                | none => [])
              false
              [Node.text (replaceAiTagContent
                (renderList (regexCleanupList cs)))] := by
          simp [regexCleanup, hai, hce]
        rw [e]
        simp [countAi, countAiList]
        decide
    · have e : regexCleanup (Node.elem n a ce cs) =
          Node.elem n a ce (regexCleanupList cs) := by
        simp only [regexCleanup]
        rw [if_neg hai]
      rw [e]
      simp [countAi, hai, ih]
  · intro s
    simp [regexCleanup, countAi]
  · simp [regexCleanupList, countAiList]
  · intro c cs hc hcs
    simp [regexCleanupList, countAiList, hc, hcs]

end AICSS

/-- C5, amended: the expansion recursion is fuel-bounded (hence total), but
the guarantee of zero remaining custom tags comes from the subsequent regex
fallback passes (html_processor.py 1120-1123 and 253-284): after expansion
plus that cleanup, no custom-prefixed element remains in any document, for
any fragment parser, any depth bound, and in particular whenever
`max_depth ≥ N + 1`. -/
theorem C5_amended (pf : String → List AICSS.Node) (maxDepth : Nat)
    (t : AICSS.Node) (hdepth : AICSS.aiDepth t + 1 ≤ maxDepth) :
    AICSS.countAi (AICSS.expandAndCleanup pf maxDepth t) = 0 :=
  AICSS.regexCleanup_countAi (AICSS.processHtmlRecursively pf t maxDepth)

/-- C5, witness: the amended theorem at the counterexample document. -/
theorem C5_amended_witness :
    AICSS.countAi (AICSS.expandAndCleanup (fun s => [.text s]) 5
      (.elem "aidiv" [] false
        [.elem "p" [] false [.text "a"], .elem "p" [] false [.text "b"]]))
      = 0 :=
  C5_amended (fun s => [.text s]) 5
    (.elem "aidiv" [] false
      [.elem "p" [] false [.text "a"], .elem "p" [] false [.text "b"]])
    (by decide)

/-! ## Claim C3: empty property maps -/

set_option maxRecDepth 8000 in
/-- C3, counterexample: the claim says an element whose description
resolves to an empty property map is still styled with a fixed minimal
default set.  In the source `nl_to_css_fast` returns `""` for an empty map
(engine.py 581-582) and `process_html_file` skips the element entirely
(`if element_css:`, line 345): for a resolver returning the empty map, the
element gets no rule and no class, and only loses its `aicss` attribute. -/
theorem C3_counterexample :
    AICSS.processHtmlFileStyles (fun _ => .ok [])
      (.elem "html" [] false [.elem "head" [] false [],
        .elem "body" [] false [.elem "div" [("aicss", "zzz")] false []]]) =
      ("<html><head></head><body><div></div></body></html>", []) := by
  decide

namespace AICSS

theorem lookupA_setAttr_id_ne (k i v : String) (hk : k ≠ "id")
    (a : List (String × String)) :
    lookupA k (setAttr "id" i a) = lookupA k a :=
  lookupA_setAttr_ne hk i a

end AICSS

/-- C3, amended: an element whose description resolves to the empty
property map contributes nothing: the loop body leaves the styles and
class maps untouched and adds no class to the element; the element keeps
its `aicss` attribute (removed only by the final sweep) and at most gains
the synthetic id (removed by the final sweep as well).  No minimal default
property set is substituted anywhere. -/
theorem C3_amended
    (resolverE : String → Except Unit (List (String × String)))
    (n : String) (a : List (String × String)) (ce : Bool)
    (cs : List AICSS.Node) (st : AICSS.LoopState) (v : String)
    (hv : AICSS.lookupAttr "aicss" a = some v)
    (hne : AICSS.pyStrip v ≠ "")
    (hok : resolverE (AICSS.pyStrip v) = .ok []) :
    (AICSS.loop328Step resolverE n a ce cs st).2 = st ∧
    AICSS.lookupA "class" (AICSS.loop328Step resolverE n a ce cs st).1 =
      AICSS.lookupA "class" a ∧
    AICSS.lookupA "aicss" (AICSS.loop328Step resolverE n a ce cs st).1 =
      some v := by
  by_cases herr : st.err.isSome = true
  · have e : AICSS.loop328Step resolverE n a ce cs st = (a, st) := by
      simp only [AICSS.loop328Step]
      rw [if_pos herr]
    rw [e]
    exact ⟨rfl, rfl, hv⟩
  · cases hid : AICSS.lookupAttr "id" a with
    | some i =>
      have e : AICSS.loop328Step resolverE n a ce cs st =
          (AICSS.setAttr "id" i a, st) := by
        simp [AICSS.loop328Step, herr, hv, hne, hok, hid]
      rw [e]
      refine ⟨rfl, ?_, ?_⟩
      · exact AICSS.lookupA_setAttr_ne (show "class" ≠ "id" by decide) i a
      · rw [AICSS.lookupA_setAttr_ne (show "aicss" ≠ "id" by decide) i a]
        exact hv
    | none =>
      have e : AICSS.loop328Step resolverE n a ce cs st =
          (AICSS.setAttr "id"
            ("aicss-" ++ AICSS.md5HexPrefix 8
              (AICSS.render (.elem n a ce cs) ++ toString st.ewaCount)) a,
            st) := by
        simp [AICSS.loop328Step, herr, hv, hne, hok, hid]
      rw [e]
      refine ⟨rfl, ?_, ?_⟩
      · exact AICSS.lookupA_setAttr_ne (show "class" ≠ "id" by decide) _ a
      · rw [AICSS.lookupA_setAttr_ne (show "aicss" ≠ "id" by decide) _ a]
        exact hv

/-- C3, witness for the amended theorem at a concrete element and state. -/
theorem C3_amended_witness :
    (AICSS.loop328Step (fun _ => .ok []) "div" [("aicss", "zzz")] false []
        ⟨none, [], [], 0⟩).2 = ⟨none, [], [], 0⟩ ∧
    AICSS.lookupA "class"
      (AICSS.loop328Step (fun _ => .ok []) "div" [("aicss", "zzz")] false []
        ⟨none, [], [], 0⟩).1 = AICSS.lookupA "class" [("aicss", "zzz")] ∧
    AICSS.lookupA "aicss"
      (AICSS.loop328Step (fun _ => .ok []) "div" [("aicss", "zzz")] false []
        ⟨none, [], [], 0⟩).1 = some "zzz" :=
  C3_amended (fun _ => .ok []) "div" [("aicss", "zzz")] false []
    ⟨none, [], [], 0⟩ "zzz" (by decide) (by decide) rfl

/-! ## Claim C2: resolver exceptions -/

namespace AICSS

theorem phase1Go_error
    (resolverE : String → Except Unit (List (String × String)))
    (doc : Node) (allRows : List DescRow) :
    ∀ (rows : List DescRow)
      (acc : List (String × String) × List (String × String)),
      (∃ r ∈ rows, resolverE r.desc = .error ()) →
      phase1Go resolverE doc allRows rows acc = .error () := by
  intro rows
  induction rows with
  | nil =>
    intro acc h
    obtain ⟨r, hr, _⟩ := h
    simp at hr
  | cons row rest ih =>
    intro acc h
    cases hres : resolverE row.desc with
    | error e =>
      cases e
      cases acc with
      | mk styles classes => simp [phase1Go, hres]
    | ok props =>
      obtain ⟨r, hr, herr⟩ := h
      rcases List.mem_cons.mp hr with hr1 | hr2
      · rw [hr1] at herr
        rw [hres] at herr
        simp at herr
      · cases acc with
        | mk styles classes =>
          simp only [phase1Go, hres]
          by_cases hpe : (if props.isEmpty = true then ""
              else renderCss row.selector props) = ""
          · rw [if_pos hpe]
            exact ih _ ⟨r, hr2, herr⟩
          · rw [if_neg hpe]
            rcases hfind : findTagById row.elementId doc with _ | tagName <;>
              exact ih _ ⟨r, hr2, herr⟩

theorem phase1_error
    (resolverE : String → Except Unit (List (String × String)))
    (doc : Node) (rows : List DescRow)
    (h : ∃ r ∈ rows, resolverE r.desc = .error ()) :
    phase1 resolverE doc rows = .error () := by
  cases rows with
  | nil =>
    obtain ⟨r, hr, _⟩ := h
    simp at hr
  | cons row rest =>
    exact phase1Go_error resolverE doc _ _ _ h

end AICSS

/-- C2, amended: a resolver call that raises does not degrade to an empty
property map for that element; the exception propagates to
`process_html_file`'s top-level handler (html_processor.py 434-438), which
discards the whole document and returns `("", {})` — the styles of every
other element are lost with it. -/
theorem C2_amended
    (resolverE : String → Except Unit (List (String × String)))
    (doc : AICSS.Node) (row : AICSS.DescRow)
    (hmem : row ∈ AICSS.extractStyleDescriptions doc)
    (herr : resolverE row.desc = .error ()) :
    AICSS.processHtmlFileStyles resolverE doc = ("", []) := by
  have h1 : AICSS.phase1 resolverE doc
      (AICSS.extractStyleDescriptions doc) = .error () :=
    AICSS.phase1_error resolverE doc _ ⟨row, hmem, herr⟩
  simp only [AICSS.processHtmlFileStyles, AICSS.processHtmlFileStylesBody,
    h1]

/-- C2, counterexample: the claim says the pass continues and still
produces the other elements' styles.  With a resolver that raises on
`boom` and succeeds on `red text`, the returned result is `("", {})`:
the second element's styles are not produced. -/
theorem C2_counterexample :
    AICSS.processHtmlFileStyles
      (fun d => if d = "boom" then .error () else .ok [("color", "#ff0000")])
      (.elem "html" [] false [.elem "head" [] false [],
        .elem "body" [] false
          [.elem "div" [("aicss", "boom")] false [],
           .elem "div" [("id", "e2"), ("aicss", "red text")] false []]]) =
      ("", []) ∧
    AICSS.lookupA "e2"
      (AICSS.processHtmlFileStyles
        (fun d => if d = "boom" then .error () else .ok [("color", "#ff0000")])
        (.elem "html" [] false [.elem "head" [] false [],
          .elem "body" [] false
            [.elem "div" [("aicss", "boom")] false [],
             .elem "div" [("id", "e2"), ("aicss", "red text")] false []]])).2
      = none :=
  ⟨by decide, by decide⟩

/-- C2, witness for the amended theorem at the counterexample document. -/
theorem C2_amended_witness :
    AICSS.processHtmlFileStyles
      (fun d => if d = "boom" then .error () else .ok [("color", "#00ff00")])
      (.elem "body" [] false [.elem "div" [("aicss", "boom")] false []]) =
      ("", []) :=
  C2_amended _ _ ⟨"aicss-1", "#aicss-1", "boom"⟩ (by decide) rfl

/-! ## Claim C7: directive round-trip -/

namespace AICSS

theorem takeUntilChar_round (q : Char) (v rest : List Char) (h : q ∉ v) :
    takeUntilChar q (v ++ q :: rest) = some (v, rest) := by
  induction v with
  | nil => simp [takeUntilChar]
  | cons c cs ih =>
    have h1 : ¬ c = q := fun hh => h (by simp [hh])
    have h2 : q ∉ cs := fun hh => h (by simp [hh])
    simp [takeUntilChar, h1, ih h2]

theorem matchQuotedPlus_round (q : Char) (v rest : List Char) (h : q ∉ v)
    (hne : v ≠ []) :
    matchQuotedPlus q (q :: (v ++ q :: rest)) = some (v, rest) := by
  simp [matchQuotedPlus, takeUntilChar_round q v rest h, hne]

theorem scanEscValue_round (q : Char) (v rest : List Char) (hq : q ∉ v)
    (hb : '\\' ∉ v) :
    scanEscValue q (v ++ q :: rest) = some (v, rest) := by
  induction v with
  | nil =>
    cases rest with
    | nil => simp [scanEscValue]
    | cons r rs => simp [scanEscValue]
  | cons c cs ih =>
    have h1 : ¬ c = q := fun hh => hq (by simp [hh])
    have h2 : ¬ c = '\\' := fun hh => hb (by simp [hh])
    have h3 : q ∉ cs := fun hh => hq (by simp [hh])
    have h4 : '\\' ∉ cs := fun hh => hb (by simp [hh])
    rcases hl : cs ++ q :: rest with _ | ⟨d, ds⟩
    · cases cs <;> simp at hl
    · show scanEscValue q (c :: (cs ++ q :: rest)) = _
      rw [hl]
      simp only [scanEscValue, if_neg h1, if_neg h2]
      rw [← hl, ih h3 h4]

theorem matchWs1_spaceQuote (x : List Char) :
    matchWs1 (' ' :: '"' :: x) = some ('"' :: x) := rfl

theorem searchM_here (m : List Char → Option (List Char × List Char))
    (cs : List Char) (r : List Char × List Char) (h : m cs = some r) :
    searchM m cs = some r := by
  cases cs with
  | nil => simpa [searchM] using h
  | cons c cs => simp [searchM, h]

theorem matchKeyValHere_round (key : String) (v rest : List Char)
    (hq : '"' ∉ v) (hne : v ≠ []) :
    matchKeyValHere key (key.data ++ ' ' :: '"' :: (v ++ '"' :: rest)) =
      some (v, rest) := by
  simp only [matchKeyValHere, matchLit_append, matchWs1_spaceQuote,
    matchQuotedPlus_round '"' v rest hq hne]

theorem matchContentHere_round (v rest : List Char)
    (hq : '"' ∉ v) (hb : '\\' ∉ v) :
    matchContentHere ("content".data ++ ' ' :: '"' :: (v ++ '"' :: rest)) =
      some (v, rest) := by
  simp only [matchContentHere, matchLit_append, matchWs1_spaceQuote,
    scanEscValue_round '"' v rest hq hb]

theorem matchStyleHere_round (v rest : List Char)
    (hq : '"' ∉ v) (hne : v ≠ []) :
    matchStyleHere ("style".data ++ ' ' :: '"' :: (v ++ '"' :: rest)) =
      some (v, rest) := by
  have h1 : matchWithStyle '"'
      ("style".data ++ ' ' :: '"' :: (v ++ '"' :: rest)) = none := rfl
  have h2 : matchStyleCore '"'
      ("style".data ++ ' ' :: '"' :: (v ++ '"' :: rest)) = some (v, rest) := by
    simp only [matchStyleCore, matchLit_append, matchWs1_spaceQuote,
      matchQuotedPlus_round '"' v rest hq hne]
  simp only [matchStyleHere, h1, h2]

theorem matchClassHere_round (v rest : List Char)
    (hq : '"' ∉ v) (hne : v ≠ []) :
    matchClassHere ("class".data ++ ' ' :: '"' :: (v ++ '"' :: rest)) =
      some (v, rest) := by
  have hid : matchIdentPlus ('"' :: (v ++ '"' :: rest)) = none := rfl
  simp only [matchClassHere, matchLit_append, matchWs1_spaceQuote, hid,
    matchQuotedPlus_round '"' v rest hq hne]

theorem dataQuoted (key v : String) :
    (key ++ " \x22" ++ v ++ "\x22").data =
      key.data ++ ' ' :: '"' :: (v.data ++ '"' :: []) := by
  simp [strData_append]

theorem lookupA_extractDirectives (key text : String) (w : String)
    (h : lookupA key
      (optEntry "content" (searchKey "content" text.data) ++
       optEntry "style" (searchKey "style" text.data) ++
       optEntry "text" (searchKey "text" text.data) ++
       optEntry "class" (searchKey "class" text.data) ++
       optEntry "href" (searchKey "href" text.data) ++
       optEntry "src" (searchKey "src" text.data) ++
       optEntry "alt" (searchKey "alt" text.data) ++
       optEntry "type" (searchKey "type" text.data) ++
       optEntry "placeholder" (searchKey "placeholder" text.data)) =
      some w) :
    lookupA key (extractDirectives text) = some w := by
  simp only [extractDirectives]
  split
  · split
    · exact lookupA_append_some h
    · exact h
  · exact h

end AICSS

/-- C7, amended: the round-trip law holds under the stronger side
condition that the value is non-empty and contains no double quote and no
backslash at all: for every key of the fixed vocabulary,
`extract_directives` applied to `key + ' "' + v + '"'` maps the key to
exactly `v`.  (The spec's weaker condition "no unescaped double quote" is
not enough: every fast pattern except `content`'s captures `[^"]+`, which
stops at the first quote character even when it is backslash-escaped.) -/
theorem C7_amended (key v : String) (hk : key ∈ AICSS.directiveKeys)
    (hne : v.data ≠ []) (hq : '"' ∉ v.data) (hb : '\\' ∉ v.data) :
    AICSS.lookupA key
      (AICSS.extractDirectives (key ++ " \x22" ++ v ++ "\x22")) = some v := by
  have hdata := AICSS.dataQuoted key v
  simp only [AICSS.directiveKeys, List.mem_cons, List.not_mem_nil,
    or_false] at hk
  rcases hk with rfl | rfl | rfl | rfl | rfl | rfl | rfl | rfl | rfl
  · have hs : AICSS.searchKey "content"
        (("content" ++ " \x22" ++ v ++ "\x22").data) = some (v.data, []) := by
      rw [hdata]
      exact AICSS.searchM_here _ _ _
        (AICSS.matchContentHere_round v.data [] hq hb)
    refine AICSS.lookupA_extractDirectives _ _ _ ?_
    simp only [List.append_assoc]
    rw [hs]
    simp [AICSS.optEntry, AICSS.lookupA]
  · have hs : AICSS.searchKey "style"
        (("style" ++ " \x22" ++ v ++ "\x22").data) = some (v.data, []) := by
      rw [hdata]
      exact AICSS.searchM_here _ _ _
        (AICSS.matchStyleHere_round v.data [] hq hne)
    refine AICSS.lookupA_extractDirectives _ _ _ ?_
    simp only [List.append_assoc]
    rw [AICSS.lookupA_optEntry_ne (by decide), hs]
    simp [AICSS.optEntry, AICSS.lookupA]
  · have hs : AICSS.searchKey "text"
        (("text" ++ " \x22" ++ v ++ "\x22").data) = some (v.data, []) := by
      rw [hdata]
      exact AICSS.searchM_here _ _ _
        (AICSS.matchKeyValHere_round "text" v.data [] hq hne)
    refine AICSS.lookupA_extractDirectives _ _ _ ?_
    simp only [List.append_assoc]
    rw [AICSS.lookupA_optEntry_ne (by decide),
      AICSS.lookupA_optEntry_ne (by decide), hs]
    simp [AICSS.optEntry, AICSS.lookupA]
  · have hs : AICSS.searchKey "class"
        (("class" ++ " \x22" ++ v ++ "\x22").data) = some (v.data, []) := by
      rw [hdata]
      exact AICSS.searchM_here _ _ _
        (AICSS.matchClassHere_round v.data [] hq hne)
    refine AICSS.lookupA_extractDirectives _ _ _ ?_
    simp only [List.append_assoc]
    rw [AICSS.lookupA_optEntry_ne (by decide),
      AICSS.lookupA_optEntry_ne (by decide),
      AICSS.lookupA_optEntry_ne (by decide), hs]
    simp [AICSS.optEntry, AICSS.lookupA]
  · have hs : AICSS.searchKey "href"
        (("href" ++ " \x22" ++ v ++ "\x22").data) = some (v.data, []) := by
      rw [hdata]
      exact AICSS.searchM_here _ _ _
        (AICSS.matchKeyValHere_round "href" v.data [] hq hne)
    refine AICSS.lookupA_extractDirectives _ _ _ ?_
    simp only [List.append_assoc]
    rw [AICSS.lookupA_optEntry_ne (by decide),
      AICSS.lookupA_optEntry_ne (by decide),
      AICSS.lookupA_optEntry_ne (by decide),
      AICSS.lookupA_optEntry_ne (by decide), hs]
    simp [AICSS.optEntry, AICSS.lookupA]
  · have hs : AICSS.searchKey "src"
        (("src" ++ " \x22" ++ v ++ "\x22").data) = some (v.data, []) := by
      rw [hdata]
      exact AICSS.searchM_here _ _ _
        (AICSS.matchKeyValHere_round "src" v.data [] hq hne)
    refine AICSS.lookupA_extractDirectives _ _ _ ?_
    simp only [List.append_assoc]
    rw [AICSS.lookupA_optEntry_ne (by decide),
      AICSS.lookupA_optEntry_ne (by decide),
      AICSS.lookupA_optEntry_ne (by decide),
      AICSS.lookupA_optEntry_ne (by decide),
      AICSS.lookupA_optEntry_ne (by decide), hs]
    simp [AICSS.optEntry, AICSS.lookupA]
  · have hs : AICSS.searchKey "alt"
        (("alt" ++ " \x22" ++ v ++ "\x22").data) = some (v.data, []) := by
      rw [hdata]
      exact AICSS.searchM_here _ _ _
        (AICSS.matchKeyValHere_round "alt" v.data [] hq hne)
    refine AICSS.lookupA_extractDirectives _ _ _ ?_
    simp only [List.append_assoc]
    rw [AICSS.lookupA_optEntry_ne (by decide),
      AICSS.lookupA_optEntry_ne (by decide),
      AICSS.lookupA_optEntry_ne (by decide),
      AICSS.lookupA_optEntry_ne (by decide),
      AICSS.lookupA_optEntry_ne (by decide),
      AICSS.lookupA_optEntry_ne (by decide), hs]
    simp [AICSS.optEntry, AICSS.lookupA]
  · have hs : AICSS.searchKey "type"
        (("type" ++ " \x22" ++ v ++ "\x22").data) = some (v.data, []) := by
      rw [hdata]
      exact AICSS.searchM_here _ _ _
        (AICSS.matchKeyValHere_round "type" v.data [] hq hne)
    refine AICSS.lookupA_extractDirectives _ _ _ ?_
    simp only [List.append_assoc]
    rw [AICSS.lookupA_optEntry_ne (by decide),
      AICSS.lookupA_optEntry_ne (by decide),
      AICSS.lookupA_optEntry_ne (by decide),
      AICSS.lookupA_optEntry_ne (by decide),
      AICSS.lookupA_optEntry_ne (by decide),
      AICSS.lookupA_optEntry_ne (by decide),
      AICSS.lookupA_optEntry_ne (by decide), hs]
    simp [AICSS.optEntry, AICSS.lookupA]
  · have hs : AICSS.searchKey "placeholder"
        (("placeholder" ++ " \x22" ++ v ++ "\x22").data) =
        some (v.data, []) := by
      rw [hdata]
      exact AICSS.searchM_here _ _ _
        (AICSS.matchKeyValHere_round "placeholder" v.data [] hq hne)
    refine AICSS.lookupA_extractDirectives _ _ _ ?_
    simp only [List.append_assoc]
    rw [AICSS.lookupA_optEntry_ne (by decide),
      AICSS.lookupA_optEntry_ne (by decide),
      AICSS.lookupA_optEntry_ne (by decide),
      AICSS.lookupA_optEntry_ne (by decide),
      AICSS.lookupA_optEntry_ne (by decide),
      AICSS.lookupA_optEntry_ne (by decide),
      AICSS.lookupA_optEntry_ne (by decide),
      AICSS.lookupA_optEntry_ne (by decide), hs]
    simp [AICSS.optEntry, AICSS.lookupA]

/-- C7, counterexample: with key `text` and value `a\"b` — which
contains no unescaped double quote, since its one quote is escaped — the
fast pattern's `[^"]+` group stops at the escaped quote, so the extracted
entry is `a\`, not the value. -/
theorem C7_counterexample :
    "text" ∈ AICSS.directiveKeys ∧
    AICSS.specUnescapedQuoteFree ("a\\\x22b").data = true ∧
    AICSS.lookupA "text"
      (AICSS.extractDirectives ("text" ++ " \x22" ++ "a\\\x22b" ++ "\x22")) =
      some "a\\" ∧
    ("a\\" : String) ≠ "a\\\x22b" :=
  ⟨by decide, by decide, by decide, by decide⟩

/-- C7, witness for the amended theorem at key `text`, value `hello`. -/
theorem C7_amended_witness :
    AICSS.lookupA "text"
      (AICSS.extractDirectives ("text" ++ " \x22" ++ "hello" ++ "\x22")) =
      some "hello" :=
  C7_amended "text" "hello" (by decide) (by decide) (by decide) (by decide)

/-! ## Claim C1: stylesheet selector invariant -/

namespace AICSS

theorem intercalate_go_data_prefix (s : String) (l : List String) :
    ∀ acc : String, ∃ t : List Char,
      (String.intercalate.go acc s l).data = acc.data ++ t := by
  induction l with
  | nil => intro acc; exact ⟨[], by simp [String.intercalate.go]⟩
  | cons a as ih =>
    intro acc
    obtain ⟨t, ht⟩ := ih (acc ++ s ++ a)
    refine ⟨(s.data ++ a.data) ++ t, ?_⟩
    rw [String.intercalate.go, ht]
    simp [strData_append, List.append_assoc]

theorem renderCss_data_prefix (sel : String)
    (props : List (String × String)) :
    ∃ t : List Char, (renderCss sel props).data = sel.data ++ t := by
  unfold renderCss
  have hl : ([sel ++ " \x7b"] ++
      props.map (fun p => "  " ++ p.1 ++ ": " ++ p.2 ++ ";") ++ ["\x7d"]) =
      (sel ++ " \x7b") ::
        (props.map (fun p => "  " ++ p.1 ++ ": " ++ p.2 ++ ";") ++ ["\x7d"]) := by
    simp
  rw [hl]
  have hgo : String.intercalate "\n" ((sel ++ " \x7b") ::
      (props.map (fun p => "  " ++ p.1 ++ ": " ++ p.2 ++ ";") ++ ["\x7d"])) =
      String.intercalate.go (sel ++ " \x7b") "\n"
        (props.map (fun p => "  " ++ p.1 ++ ": " ++ p.2 ++ ";") ++ ["\x7d"]) :=
    rfl
  rw [hgo]
  obtain ⟨t, ht⟩ := intercalate_go_data_prefix "\n"
    (props.map (fun p => "  " ++ p.1 ++ ": " ++ p.2 ++ ";") ++ ["\x7d"])
    (sel ++ " \x7b")
  exact ⟨" \x7b".data ++ t, by rw [ht]; simp [strData_append, List.append_assoc]⟩

theorem strReplaceAll_starts (pat rep s : String) (c : Char) (cs : List Char)
    (hp : pat.data = c :: cs) (rest : List Char)
    (hs : s.data = pat.data ++ rest) :
    ∃ t : List Char, (strReplaceAll pat rep s).data = rep.data ++ t := by
  refine ⟨subAllGo (fun x => (matchLit pat.data x).map (fun r => ([], r)))
    (fun _ => rep.data) ((cs ++ rest).length) rest, ?_⟩
  show (subAllF _ _ s.data) = _
  rw [subAllF, hs, hp]
  show subAllGo _ _ (c :: (cs ++ rest)).length (c :: (cs ++ rest)) = _
  rw [List.length_cons]
  rw [subAllGo]
  rw [show matchLit (c :: cs) (c :: (cs ++ rest)) = some rest from
    matchLit_append (c :: cs) rest]
  rfl

end AICSS

/-- C1, amended: the invariant does hold for the rules generated from
style-description (`aicss`) attributes: phase 1 stores the CSS rendered
against the intermediate `#id` selector, and the assembly step
(html_processor.py 384-389) rewrites `#id` to the derived `.class`
selector, so every stylesheet entry produced for such a rule starts with
the class selector and no entry starts with `#`.  (The aistyle path has no
such rewrite, which is what the counterexample exploits.) -/
theorem C1_amended (i cls : String) (props classes : List (String × String))
    (hcls : AICSS.lookupA i classes = some cls) :
    ∀ e ∈ AICSS.stylesheetEntries
        [(i, AICSS.renderCss ("#" ++ i) props)] classes,
      AICSS.strStartsWith e ("." ++ cls) = true ∧
      AICSS.strStartsWith e "#" = false := by
  intro e he
  have hentry : AICSS.stylesheetEntries
      [(i, AICSS.renderCss ("#" ++ i) props)] classes =
      [AICSS.strReplaceAll ("#" ++ i) ("." ++ cls)
        (AICSS.renderCss ("#" ++ i) props) ++ "\n"] := by
    simp [AICSS.stylesheetEntries, hcls]
  rw [hentry] at he
  simp only [List.mem_singleton] at he
  subst he
  obtain ⟨t, ht⟩ := AICSS.renderCss_data_prefix ("#" ++ i) props
  obtain ⟨u, hu⟩ := AICSS.strReplaceAll_starts ("#" ++ i) ("." ++ cls)
    (AICSS.renderCss ("#" ++ i) props) '#' i.data
    (by rw [AICSS.strData_append]; rfl) t ht
  have hdot : (("." ++ cls) : String).data = '.' :: cls.data := by
    rw [AICSS.strData_append]; rfl
  have hedata : (AICSS.strReplaceAll ("#" ++ i) ("." ++ cls)
      (AICSS.renderCss ("#" ++ i) props) ++ "\n").data =
      ('.' :: cls.data) ++ (u ++ ['\n']) := by
    rw [AICSS.strData_append, hu, hdot]
    simp [List.append_assoc]
  constructor
  · show (("." ++ cls) : String).data.isPrefixOf _ = true
    rw [hedata, hdot]
    exact AICSS.isPrefixOf_append _ _
  · show ("#" : String).data.isPrefixOf _ = false
    rw [hedata]
    simp [List.isPrefixOf]

/-- C1, counterexample: an `aistyle` block line `#header: blue background`
is rendered by `nl_to_css_fast` against the user's selector unchanged
(html_processor.py 958-962) and appended to the head's style node as-is,
so the final stylesheet contains the identifier-selector rule
`#header \x7b ... \x7d`. -/
theorem C1_counterexample :
    AICSS.render (AICSS.aistylePhase
      (fun d => if d = "blue background"
        then [("background-color", "#0000ff")] else [])
      (.elem "html" [] false
        [.elem "head" [] false [],
         .elem "body" [] false
           [.elem "aistyle" [] false [.text "#header: blue background"]]])) =
      "<html><head><style type=\x22text/css\x22>\n/* AI-generated styles */\n#header \x7b\n  background-color: #0000ff;\n\x7d</style></head><body></body></html>" ∧
    AICSS.containsSub "\n#header \x7b"
      (AICSS.render (AICSS.aistylePhase
        (fun d => if d = "blue background"
          then [("background-color", "#0000ff")] else [])
        (.elem "html" [] false
          [.elem "head" [] false [],
           .elem "body" [] false
             [.elem "aistyle" [] false
               [.text "#header: blue background"]]]))) = true :=
  ⟨by decide, by decide⟩

/-- C1, witness for the amended theorem at a concrete id, class and
property map. -/
theorem C1_amended_witness :
    AICSS.strStartsWith
      (AICSS.strReplaceAll ("#" ++ "aicss-1") ("." ++ "div-abcd")
        (AICSS.renderCss ("#" ++ "aicss-1") [("color", "#ffffff")]) ++ "\n")
      ("." ++ "div-abcd") = true ∧
    AICSS.strStartsWith
      (AICSS.strReplaceAll ("#" ++ "aicss-1") ("." ++ "div-abcd")
        (AICSS.renderCss ("#" ++ "aicss-1") [("color", "#ffffff")]) ++ "\n")
      "#" = false :=
  C1_amended "aicss-1" "div-abcd" [("color", "#ffffff")]
    [("aicss-1", "div-abcd")] (by decide) _ (by decide)

/-! ## Claim C10: blank style-description attributes -/

/-- C10, confirmed: an element whose `aicss` attribute is empty or
whitespace-only is skipped by the description collector (it only consumes
an index; no row, hence no selector and no CSS, comes from it), is left
fully untouched by the main loop (no id is assigned, no class is derived,
the style and class maps are unchanged), and the final sweep still deletes
the `aicss` attribute while preserving every other attribute. -/
theorem C10_blank_aicss
    (resolverE : String → Except Unit (List (String × String)))
    (n v : String) (a : List (String × String)) (ce : Bool)
    (cs : List AICSS.Node) (st : AICSS.LoopState) (i : Nat)
    (rows : List AICSS.DescRow)
    (hv : AICSS.lookupAttr "aicss" a = some v)
    (hblank : AICSS.isBlank v = true)
    (hnodup : (a.map Prod.fst).Nodup) :
    AICSS.collectDescStep n a (i, rows) = (i + 1, rows) ∧
    AICSS.loop328Step resolverE n a ce cs st = (a, st) ∧
    AICSS.removeAicssAttrs (.elem n a ce cs) =
      .elem n (AICSS.eraseAttr "aicss" a) ce
        (AICSS.removeAicssAttrsList cs) ∧
    AICSS.lookupA "aicss" (AICSS.eraseAttr "aicss" a) = none ∧
    ∀ j, j ≠ "aicss" →
      AICSS.lookupA j (AICSS.eraseAttr "aicss" a) = AICSS.lookupA j a := by
  have hdesc : AICSS.pyStrip v = "" := AICSS.isBlank_pyStrip v hblank
  refine ⟨?_, ?_, ?_, ?_, ?_⟩
  · simp [AICSS.collectDescStep, hv, hdesc]
  · by_cases herr : st.err.isSome
    · simp [AICSS.loop328Step, herr]
    · simp [AICSS.loop328Step, herr, hv, hdesc]
  · simp [AICSS.removeAicssAttrs, hv]
  · exact AICSS.lookupA_eraseAttr_self hnodup
  · intro j hj
    exact AICSS.lookupA_eraseAttr_ne hj a

/-- C10, witness at a concrete element with a whitespace-only `aicss`
attribute. -/
theorem C10_blank_aicss_witness :
    AICSS.collectDescStep "div" [("id", "x1"), ("aicss", "   ")] (0, []) =
      (1, []) ∧
    AICSS.loop328Step (fun _ => .ok []) "div"
      [("id", "x1"), ("aicss", "   ")] false [] ⟨none, [], [], 0⟩ =
      ([("id", "x1"), ("aicss", "   ")], ⟨none, [], [], 0⟩) ∧
    AICSS.lookupA "aicss"
      (AICSS.eraseAttr "aicss" [("id", "x1"), ("aicss", "   ")]) = none ∧
    AICSS.lookupA "id"
      (AICSS.eraseAttr "aicss" [("id", "x1"), ("aicss", "   ")]) =
      AICSS.lookupA "id" [("id", "x1"), ("aicss", "   ")] := by
  obtain ⟨h1, h2, h3, h4, h5⟩ := C10_blank_aicss (fun _ => .ok []) "div" "   "
    [("id", "x1"), ("aicss", "   ")] false [] ⟨none, [], [], 0⟩ 0 []
    (by decide) (by decide) (by decide)
  exact ⟨h1, h2, h4, h5 "id" (by decide)⟩
